import Mathlib

/-
Verification development for the strongarm static-analysis core:
a shallow embedding of the Objective-C runtime metadata parser
(src/strongarm/macho/objc_runtime_data_parser.py) and of the
function/data-flow analyzer (src/strongarm/objc_analyzer.py),
together with theorems about their behaviour.

Conventions of the embedding:
  - Virtual addresses are modelled as `Nat`; decoded immediates and
    signed displacements as `Int` (Python integers are unbounded,
    and struct fields arrive already decoded by the binary accessor).
  - Python `dict`s are modelled as insertion-ordered association
    lists (`List (key x value)`): assignment to a present key replaces
    the value in place, assignment to an absent key appends, and
    `del` removes the entry.  This preserves CPython iteration order.
  - Fallible Python code (raising RuntimeError / ValueError) is
    modelled with `Except String`.
  - The external collaborators that are not part of the two source
    files (the Mach-O binary accessor, the capstone instruction
    decoder, MachoAnalyzer, ObjcBranchInstr) are modelled from the
    spec as explicit parameter structures; each such definition is
    marked in its doc comment.
-/

set_option autoImplicit false

deriving instance DecidableEq for Except

namespace Strongarm

/- ## Python-dict model: insertion-ordered association lists -/

/-- Python `d[k]` / `d.get(k)`: value of the first (only) entry with key `k`. -/
def dictGet {κ α : Type} [BEq κ] : List (κ × α) → κ → Option α
  | [], _ => none
  | p :: rest, k => if p.1 == k then some p.2 else dictGet rest k

/-- Python `k in d`. -/
def dictContains {κ α : Type} [BEq κ] (m : List (κ × α)) (k : κ) : Bool :=
  (dictGet m k).isSome

/-- Python `d[k] = v`: replace the (unique) entry in place when the key is
present, append when absent. -/
def dictSet {κ α : Type} [BEq κ] : List (κ × α) → κ → α → List (κ × α)
  | [], k, v => [(k, v)]
  | p :: rest, k, v =>
    if p.1 == k then (k, v) :: rest else p :: dictSet rest k v

/-- Python `del d[k]`: remove the (unique) entry with key `k`. -/
def dictDel {κ α : Type} [BEq κ] : List (κ × α) → κ → List (κ × α)
  | [], _ => []
  | p :: rest, k => if p.1 == k then rest else p :: dictDel rest k

theorem dictGet_dictSet_self {κ α : Type} [BEq κ] [LawfulBEq κ]
    (m : List (κ × α)) (k : κ) (v : α) :
    dictGet (dictSet m k v) k = some v := by
  induction m with
  | nil => simp [dictGet, dictSet]
  | cons p rest ih =>
    by_cases hk : p.1 == k
    · simp [dictGet, dictSet, hk]
    · simp [dictGet, dictSet, hk, ih]

theorem dictGet_dictSet_ne {κ α : Type} [BEq κ] [LawfulBEq κ]
    (m : List (κ × α)) (k k2 : κ) (v : α) (h : ¬(k2 = k)) :
    dictGet (dictSet m k v) k2 = dictGet m k2 := by
  have hkk2 : ¬(k = k2) := fun hkk => h hkk.symm
  induction m with
  | nil => simp [dictGet, dictSet, h, hkk2]
  | cons p rest ih =>
    by_cases hk : p.1 == k
    · have hpk : p.1 = k := by simpa using hk
      have hne : ¬(p.1 = k2) := by
        rw [hpk]; exact fun hkk => h hkk.symm
      simp [dictGet, dictSet, hk, h, hne, hpk, hkk2]
    · by_cases hk2 : p.1 == k2
      · simp [dictGet, dictSet, hk, hk2]
      · simp [dictGet, dictSet, hk, hk2, ih]

theorem dictGet_dictDel_ne {κ α : Type} [BEq κ] [LawfulBEq κ]
    (m : List (κ × α)) (k k2 : κ) (h : ¬(k2 = k)) :
    dictGet (dictDel m k) k2 = dictGet m k2 := by
  induction m with
  | nil => simp [dictGet, dictDel]
  | cons p rest ih =>
    by_cases hk : p.1 == k
    · have hpk : p.1 = k := by simpa using hk
      have hne : ¬(p.1 = k2) := by
        rw [hpk]; exact fun hkk => h hkk.symm
      simp [dictGet, dictDel, hk, hne]
    · by_cases hk2 : p.1 == k2
      · simp [dictGet, dictDel, hk, hk2]
      · simp [dictGet, dictDel, hk, hk2, ih]

/- ## Decoded-instruction model -/

/-- Modelled from the spec: one decoded operand of the external instruction
decoder (capstone), carrying operand kind (register / immediate / memory)
and the decoded register name, immediate value, or base + displacement. -/
inductive Operand where
  | reg (name : String)
  | imm (val : Int)
  | mem (base : String) (disp : Int)
deriving DecidableEq, Repr

/-- Modelled from the spec: one decoded instruction of the external instruction
decoder, exposing address, mnemonic and the ordered operand list. -/
structure Instr where
  address : Nat
  mnemonic : String
  operands : List Operand
deriving DecidableEq, Repr

/-- Models capstone `insn.reg_name(op.value.reg)`.  `op.value` is a ctypes
union; reading its `.reg` field on a register operand yields that register
(whose name the decoder reports), on a memory operand it aliases the base
register field, and on an immediate operand it reinterprets the low 32 bits
of the immediate as a register id, which capstone maps to an unrelated
register name.  The id-to-name table is capstone-internal; it is modelled
here as a tag that is distinct from every source-level register name. -/
def op_value_reg_name : Operand → String
  | .reg n => n
  | .mem b _ => b
  | .imm v => ("capstone_reg_") ++ toString (Int.emod v (2 ^ 32))

/-- Models capstone `op.value.imm`: the decoded immediate on an immediate
operand.  On the other operand kinds the union read would yield
reinterpreted bytes; those cases are never exercised by the source (movz
always decodes an immediate second operand) and are modelled as 0. -/
def op_value_imm : Operand → Int
  | .imm v => v
  | .reg _ => 0
  | .mem _ _ => 0

/- ## Backward register resolution
   (ObjcFunctionAnalyzer.determine_register_contents and
    ObjcFunctionAnalyzer._resolve_register_value_from_data_links) -/

/-- `ObjcFunctionAnalyzer._trimmed_reg_name`: remove a leading `x` or `w`
from a general-purpose register name so that both slices of one register
unify; other names (such as `sp`) are returned unchanged. -/
def trimmed_reg_name (reg_name : String) : String :=
  match reg_name.data with
  | c :: rest => if c = ('x') || c = ('w') then String.mk rest else reg_name
  | [] => reg_name

/-- The mutable scan state of `determine_register_contents`:
the worklist of still-unknown registers, the map of registers resolved to
an exact value, and the pending dependency links `dst -> (src, offset)`. -/
structure DFState where
  unknown_regs : List String
  determined_values : List (String × Int)
  needed_links : List (String × (String × Int))
deriving DecidableEq, Repr

/-- One iteration of the backward scan loop of
`determine_register_contents`.  Once the unknown set is empty the Python
loop breaks; that is modelled by making every later step the identity. -/
def df_step (st : DFState) (instr : Instr) : DFState :=
  if st.unknown_regs.isEmpty then st
  else if instr.operands.length < 2 then st
  else if instr.mnemonic == ("str") then st
  else
    match instr.operands with
    | dst :: src0 :: restOps =>
      match dst with
      | .reg dstRaw =>
        let dst_reg_name := trimmed_reg_name dstRaw
        if !(st.unknown_regs.contains dst_reg_name) then st
        else
          -- or-with-zero-register idiom: with more than two operands and a
          -- register source whose trimmed name is `zr`, the true source is
          -- re-read from the third operand
          let src :=
            match restOps with
            | third :: _ =>
              match src0 with
              | .reg srcRaw =>
                if trimmed_reg_name srcRaw == ("zr") then third else src0
              | _ => src0
            | [] => src0
          match src with
          | .imm v =>
            { st with
              unknown_regs := st.unknown_regs.erase dst_reg_name,
              determined_values := dictSet st.determined_values dst_reg_name v }
          | .reg srcRaw =>
            let src_reg_name := trimmed_reg_name srcRaw
            let unknown1 := st.unknown_regs.erase dst_reg_name
            match dictGet st.determined_values src_reg_name with
            | some v =>
              { st with
                unknown_regs := unknown1,
                determined_values := dictSet st.determined_values dst_reg_name v }
            | none =>
              { st with
                unknown_regs := unknown1 ++ [src_reg_name],
                needed_links := dictSet st.needed_links dst_reg_name (src_reg_name, 0) }
          | .mem base disp =>
            let src_reg_name := trimmed_reg_name base
            let unknown1 := st.unknown_regs.erase dst_reg_name
            match dictGet st.determined_values src_reg_name with
            | some v =>
              { st with
                unknown_regs := unknown1,
                determined_values := dictSet st.determined_values dst_reg_name (v + disp) }
            | none =>
              { st with
                unknown_regs := unknown1 ++ [src_reg_name],
                needed_links := dictSet st.needed_links dst_reg_name (src_reg_name, disp) }
      | _ => st
    | _ => st

/-- `ObjcFunctionAnalyzer._resolve_register_value_from_data_links`: walk the
pending-link chain from the queried register to a fully known value, summing
offsets.  The Python recursion has no cycle guard and would exhaust the
interpreter stack on a cyclic link set; the `fuel` parameter models the
recursion limit (`maximum recursion depth exceeded` is a RuntimeError in the
Python 2 family this code targets). -/
def resolve_register_value_from_data_links
    (links : List (String × (String × Int))) (resolved : List (String × Int)) :
    Nat → String → Except String Int
  | fuel, desired0 =>
    if resolved.isEmpty then
      .error ("need at least one known value to resolve data dependencies")
    else
      let desired := trimmed_reg_name desired0
      if !(dictContains links desired) && !(dictContains resolved desired) then
        .error ("invalid data set")
      else
        match dictGet resolved desired with
        | some v => .ok v
        | none =>
          match dictGet links desired with
          | some (src, off) =>
            match fuel with
            | 0 => .error ("maximum recursion depth exceeded")
            | fuel1 + 1 =>
              (resolve_register_value_from_data_links links resolved fuel1 src).map
                (fun v => v + off)
          | none => .error ("invalid data set")

/-- `ObjcFunctionAnalyzer.determine_register_contents`: symbolic backward
scan from `start_index` down to the first instruction
(`self._instructions[start_index::-1]`), then the post-scan stack-pointer
and unresolved-register checks, then the pending-link resolution. -/
def determine_register_contents
    (instrs : List Instr) (desired_reg : String) (start_index : Nat) :
    Except String Int :=
  let scanned := (instrs.take (start_index + 1)).reverse
  let st0 : DFState := ⟨[trimmed_reg_name desired_reg], [], []⟩
  let st := scanned.foldl df_step st0
  if dictContains st.needed_links ("sp") then
    .error (desired_reg ++ (" contents depends on stack, cannot determine statically"))
  else if !st.unknown_regs.isEmpty then
    .error ("Data-flow loop exited before all unknowns were marked")
  else
    resolve_register_value_from_data_links st.needed_links st.determined_values
      (st.needed_links.length + 1) desired_reg

/-- `ObjcFunctionAnalyzer.get_selref`: contents of `x1` at the given
instruction index.  The source recovers the index of the passed instruction
with `self._instructions.index(msgsend_instr)`; capstone instruction objects
compare by identity and carry distinct addresses, so that index is the
instruction's actual position, which is passed here directly. -/
def get_selref (instrs : List Instr) (msgsend_index : Nat) : Except String Int :=
  determine_register_contents instrs ("x1") msgsend_index

/- ## Objective-C runtime data model (objc_runtime_data_parser.py) -/

/-- Python truthiness of an optional string: `None` and the empty string
are both falsy (`if not selector_string`, `if not symbol_name`, ...). -/
def truthy_string : Option String → Option String
  | some s =>
    match s.data with
    | [] => none
    | _ :: _ => some s
  | none => none

/-- Python truthiness of an optional implementation address: `None` and the
integer 0 are both falsy. -/
def truthy_int : Option Nat → Bool
  | none => false
  | some v => !(v == 0)

/-- Python `hex(n)` for the nonnegative integers that occur here. -/
def hex_str (n : Nat) : String :=
  ("0x") ++ String.mk (Nat.toDigits 16 n)

structure ObjcSelref where
  source_address : Nat
  destination_address : Nat
  selector_literal : String
deriving DecidableEq, Repr

structure ObjcSelector where
  name : String
  selref : Option ObjcSelref
  implementation : Option Nat
deriving DecidableEq, Repr

/-- `ObjcSelector.is_external_definition = (not self.implementation)`. -/
def ObjcSelector.is_external_definition (s : ObjcSelector) : Bool :=
  !(truthy_int s.implementation)

structure ObjcIvar where
  name : String
  class_name : Option String
  field_offset : Nat
deriving DecidableEq, Repr

/- The raw fixed-layout metadata structs are read by the external binary
accessor (`strongarm.macho.arch_independent_structs`, not under src/); only
the fields the parser dereferences are modelled.  Each struct carries its
own `sizeof`, as in the source (`methlist.sizeof`, `method_ent.sizeof`). -/

structure ObjcClassRawStruct where
  metaclass : Nat
  data : Nat
deriving DecidableEq, Repr

structure ObjcDataRawStruct where
  name : Nat
  base_methods : Nat
  base_protocols : Nat
  ivars : Nat
deriving DecidableEq, Repr

structure ObjcCategoryRawStruct where
  name : Nat
  instance_methods : Nat
  class_methods : Nat
  base_protocols : Nat
deriving DecidableEq, Repr

structure ObjcProtocolRawStruct where
  name : Nat
  required_instance_methods : Nat
  required_class_methods : Nat
  optional_instance_methods : Nat
  optional_class_methods : Nat
deriving DecidableEq, Repr

structure ObjcProtocolListStruct where
  count : Nat
  binary_offset : Nat
  sizeof : Nat
deriving DecidableEq, Repr

structure ObjcMethodListStruct where
  methcount : Nat
  sizeof : Nat
deriving DecidableEq, Repr

structure ObjcMethodStruct where
  name : Nat
  implementation : Nat
  sizeof : Nat
deriving DecidableEq, Repr

structure ObjcIvarListStruct where
  count : Nat
  sizeof : Nat
deriving DecidableEq, Repr

structure ObjcIvarStruct where
  name : Nat
  type : Nat
  offset_ptr : Nat
  sizeof : Nat
deriving DecidableEq, Repr

/-- Modelled from the spec: the external Binary Accessor (§6) consumed by
`ObjcRuntimeDataParser`.  `read_pointer_section` is split into one field per
section the parser reads (for `__objc_selrefs` both parallel arrays are
used; for the class/category/protocol lists only the destination pointers
are used).  Struct reads never fail in the source (they return whatever
bytes are at the address), so they are total functions here. -/
structure MachoBinary where
  selrefs_section : List Nat × List Nat
  classlist_pointers : List Nat
  catlist_pointers : List Nat
  protolist_pointers : List Nat
  get_full_string_from_start_address : Nat → Option String
  class_struct_at : Nat → ObjcClassRawStruct
  data_struct_at : Nat → ObjcDataRawStruct
  category_struct_at : Nat → ObjcCategoryRawStruct
  protocol_struct_at : Nat → ObjcProtocolRawStruct
  protocol_list_struct_at : Nat → ObjcProtocolListStruct
  method_list_struct_at : Nat → ObjcMethodListStruct
  method_struct_at : Nat → ObjcMethodStruct
  ivar_list_struct_at : Nat → ObjcIvarListStruct
  ivar_struct_at : Nat → ObjcIvarStruct
  read_word : Nat → Nat
  read_word32 : Nat → Nat
  platform_word_size : Nat
  virtual_base : Nat

abbrev SelrefPtrToSelectorMap := List (Nat × ObjcSelector)
abbrev SelectorLiteralToSelrefMap := List (Nat × ObjcSelref)

/- ## Phase 1: selector references (_parse_selrefs) -/

/-- The loop body of `ObjcRuntimeDataParser._parse_selrefs` over the zipped
selref-pointer / selector-literal-pointer arrays: an unreadable (or empty)
literal string skips the entry, otherwise both maps are populated, the
selector map provisionally with `implementation = None`. -/
def parse_selrefs_loop (bin : MachoBinary) :
    List (Nat × Nat) → SelectorLiteralToSelrefMap → SelrefPtrToSelectorMap →
    SelectorLiteralToSelrefMap × SelrefPtrToSelectorMap
  | [], lit, sel => (lit, sel)
  | (selref_ptr, selector_literal_ptr) :: rest, lit, sel =>
    match truthy_string (bin.get_full_string_from_start_address selector_literal_ptr) with
    | none => parse_selrefs_loop bin rest lit sel
    | some selector_string =>
      let wrapped_selref : ObjcSelref := ⟨selref_ptr, selector_literal_ptr, selector_string⟩
      parse_selrefs_loop bin rest
        (dictSet lit selector_literal_ptr wrapped_selref)
        (dictSet sel selref_ptr ⟨selector_string, some wrapped_selref, none⟩)

/-- `ObjcRuntimeDataParser._parse_selrefs`: sanity-check the parallel array
lengths, then run the per-pair loop. -/
def parse_selrefs (bin : MachoBinary) :
    Except String (SelectorLiteralToSelrefMap × SelrefPtrToSelectorMap) :=
  let selref_pointers := bin.selrefs_section.1
  let selector_literal_pointers := bin.selrefs_section.2
  if !(selref_pointers.length == selector_literal_pointers.length) then
    .error ("read invalid data from __objc_selrefs")
  else
    .ok (parse_selrefs_loop bin (selref_pointers.zip selector_literal_pointers) [] [])

/- ## Method-list resolution (read_selectors_from_methlist_ptr) -/

/-- The per-entry update of `_selref_ptr_to_selector_map` in
`read_selectors_from_methlist_ptr`: when an entry for the selref source
address is already present and its implementation is falsy it is deleted,
then the new selector is stored under that key unconditionally. -/
def store_selector_for_selref
    (m : SelrefPtrToSelectorMap) (k : Nat) (v : ObjcSelector) : SelrefPtrToSelectorMap :=
  dictSet
    (match dictGet m k with
     | some previously_parsed_selector =>
       if truthy_int previously_parsed_selector.implementation then m
       else dictDel m k
     | none => m)
    k v

/-- The fixed-stride walk over method entries in
`read_selectors_from_methlist_ptr`, one recursion step per entry. -/
def read_selectors_loop (bin : MachoBinary) (lit : SelectorLiteralToSelrefMap) :
    Nat → Nat → SelrefPtrToSelectorMap →
    Except String (List ObjcSelector × SelrefPtrToSelectorMap)
  | 0, _, sel => .ok ([], sel)
  | methcount + 1, method_entry_off, sel =>
    let method_ent := bin.method_struct_at method_entry_off
    -- byte-align IMP: method_ent.implementation &= ~0x3
    let implementation := method_ent.implementation / 4 * 4
    match truthy_string (bin.get_full_string_from_start_address method_ent.name) with
    | none => .error (("Could not get symbol name for ") ++ toString method_ent.name)
    | some symbol_name =>
      let selref := dictGet lit method_ent.name
      let selector : ObjcSelector := ⟨symbol_name, selref, some implementation⟩
      let sel1 :=
        match selref with
        | some sr => store_selector_for_selref sel sr.source_address selector
        | none => sel
      match read_selectors_loop bin lit methcount (method_entry_off + method_ent.sizeof) sel1 with
      | .error e => .error e
      | .ok (selectors, sel2) => .ok (selector :: selectors, sel2)

/-- `ObjcRuntimeDataParser.read_selectors_from_methlist_ptr`. -/
def read_selectors_from_methlist_ptr
    (bin : MachoBinary) (lit : SelectorLiteralToSelrefMap) (methlist_ptr : Nat)
    (sel : SelrefPtrToSelectorMap) :
    Except String (List ObjcSelector × SelrefPtrToSelectorMap) :=
  let methlist := bin.method_list_struct_at methlist_ptr
  read_selectors_loop bin lit methlist.methcount (methlist_ptr + methlist.sizeof) sel

/-- A null method-list pointer means "no methods of that kind"
(`if objc_data_struct.base_methods:` and the like). -/
def read_selectors_from_optional_methlist
    (bin : MachoBinary) (lit : SelectorLiteralToSelrefMap) (methlist_ptr : Nat)
    (sel : SelrefPtrToSelectorMap) :
    Except String (List ObjcSelector × SelrefPtrToSelectorMap) :=
  if methlist_ptr == 0 then .ok ([], sel)
  else read_selectors_from_methlist_ptr bin lit methlist_ptr sel

/- ## Ivar-list resolution (read_ivars_from_ivarlist_ptr) -/

def read_ivars_loop (bin : MachoBinary) : Nat → Nat → Except String (List ObjcIvar)
  | 0, _ => .ok []
  | count + 1, ivar_struct_ptr =>
    let ivar_struct := bin.ivar_struct_at ivar_struct_ptr
    let class_name := bin.get_full_string_from_start_address ivar_struct.type
    let field_offset := bin.read_word32 ivar_struct.offset_ptr
    -- class_name and field_offset can be falsy, so only the name is checked
    match truthy_string (bin.get_full_string_from_start_address ivar_struct.name) with
    | none => .error (("Failed to read ivar data for ivar entry @ ") ++ hex_str ivar_struct_ptr)
    | some ivar_name =>
      (read_ivars_loop bin count (ivar_struct_ptr + ivar_struct.sizeof)).map
        (fun ivars => ⟨ivar_name, class_name, field_offset⟩ :: ivars)

/-- `ObjcRuntimeDataParser.read_ivars_from_ivarlist_ptr`. -/
def read_ivars_from_ivarlist_ptr (bin : MachoBinary) (ivarlist_ptr : Nat) :
    Except String (List ObjcIvar) :=
  let ivarlist := bin.ivar_list_struct_at ivarlist_ptr
  read_ivars_loop bin ivarlist.count (ivarlist_ptr + ivarlist.sizeof)

/- ## Entities: protocols, classes, categories -/

/-- `ObjcProtocol` subclasses `ObjcClass` in the source but is always
constructed as `ObjcProtocol(raw_struct, name, selectors)` with empty ivar
and protocol lists, so it is modelled flat. -/
structure ObjcProtocol where
  raw_struct : ObjcProtocolRawStruct
  name : String
  selectors : List ObjcSelector
deriving DecidableEq, Repr

/-- The `raw_struct` provenance reference carried by an `ObjcClass`:
classes keep the `__objc_class` struct, categories the `__objc_category`
struct. -/
inductive ObjcClassRawRef where
  | cls (c : ObjcClassRawStruct)
  | cat (c : ObjcCategoryRawStruct)
deriving DecidableEq, Repr

/-- `ObjcClass` (and its `ObjcCategory` variant: `category_info` holds
`(base_class, category_name)` and the name is synthesized as
`"base_class (category_name)"`). -/
structure ObjcClass where
  raw_struct : ObjcClassRawRef
  name : String
  selectors : List ObjcSelector
  ivars : List ObjcIvar
  protocols : List ObjcProtocol
  category_info : Option (String × String)
deriving DecidableEq, Repr

/-- `ObjcRuntimeDataParser._protolist_ptr_to_protocol_ptr_list`: the walk
over protocol pointers directly after the protocol-list struct, with the
platform word size as stride. -/
def protolist_entries (bin : MachoBinary) : Nat → Nat → List Nat
  | 0, _ => []
  | count + 1, addr =>
    bin.read_word addr :: protolist_entries bin count (addr + bin.platform_word_size)

def protolist_ptr_to_protocol_ptr_list (bin : MachoBinary) (protolist_ptr : Nat) : List Nat :=
  let protolist := bin.protocol_list_struct_at protolist_ptr
  protolist_entries bin protolist.count (protolist.binary_offset + protolist.sizeof)

/-- `ObjcRuntimeDataParser._parse_objc_protocol_entry`: required/optional x
instance/class method lists, each independently optional. -/
def parse_objc_protocol_entry
    (bin : MachoBinary) (lit : SelectorLiteralToSelrefMap)
    (objc_protocol_struct : ObjcProtocolRawStruct) (sel : SelrefPtrToSelectorMap) :
    Except String (ObjcProtocol × SelrefPtrToSelectorMap) :=
  match truthy_string (bin.get_full_string_from_start_address objc_protocol_struct.name) with
  | none => .error (("Could not get symbol name for ") ++ toString objc_protocol_struct.name)
  | some symbol_name =>
    match read_selectors_from_optional_methlist bin lit
        objc_protocol_struct.required_instance_methods sel with
    | .error e => .error e
    | .ok (s1, m1) =>
      match read_selectors_from_optional_methlist bin lit
          objc_protocol_struct.required_class_methods m1 with
      | .error e => .error e
      | .ok (s2, m2) =>
        match read_selectors_from_optional_methlist bin lit
            objc_protocol_struct.optional_instance_methods m2 with
        | .error e => .error e
        | .ok (s3, m3) =>
          match read_selectors_from_optional_methlist bin lit
              objc_protocol_struct.optional_class_methods m3 with
          | .error e => .error e
          | .ok (s4, m4) =>
            .ok (⟨objc_protocol_struct, symbol_name, s1 ++ s2 ++ s3 ++ s4⟩, m4)

/-- `ObjcRuntimeDataParser._parse_protocol_ptr_list`.  `read_struct` always
yields a (truthy) struct instance, so the `if objc_protocol_struct:` guard
in the source always passes. -/
def parse_protocol_ptr_list
    (bin : MachoBinary) (lit : SelectorLiteralToSelrefMap) :
    List Nat → SelrefPtrToSelectorMap →
    Except String (List ObjcProtocol × SelrefPtrToSelectorMap)
  | [], sel => .ok ([], sel)
  | protocol_ptr :: rest, sel =>
    match parse_objc_protocol_entry bin lit (bin.protocol_struct_at protocol_ptr) sel with
    | .error e => .error e
    | .ok (parsed_protocol, m1) =>
      match parse_protocol_ptr_list bin lit rest m1 with
      | .error e => .error e
      | .ok (protocols, m2) => .ok (parsed_protocol :: protocols, m2)

/-- `ObjcRuntimeDataParser._parse_objc_data_entry`: instance selectors,
conformed protocols and ivars of one class-data struct. -/
def parse_objc_data_entry
    (bin : MachoBinary) (lit : SelectorLiteralToSelrefMap)
    (objc_class_struct : ObjcClassRawStruct) (objc_data_struct : ObjcDataRawStruct)
    (sel : SelrefPtrToSelectorMap) :
    Except String (ObjcClass × SelrefPtrToSelectorMap) :=
  match truthy_string (bin.get_full_string_from_start_address objc_data_struct.name) with
  | none => .error (("Could not get symbol name for ") ++ toString objc_data_struct.name)
  | some symbol_name =>
    -- if the class implements no methods, base_methods is the null pointer
    match read_selectors_from_optional_methlist bin lit
        objc_data_struct.base_methods sel with
    | .error e => .error e
    | .ok (selectors, m1) =>
      -- if the class conforms to no protocols, base_protocols is null
      match (if objc_data_struct.base_protocols == 0 then
               (.ok ([], m1) : Except String (List ObjcProtocol × SelrefPtrToSelectorMap))
             else parse_protocol_ptr_list bin lit
               (protolist_ptr_to_protocol_ptr_list bin objc_data_struct.base_protocols) m1) with
      | .error e => .error e
      | .ok (protocols, m2) =>
        match (if objc_data_struct.ivars == 0 then
                 (.ok [] : Except String (List ObjcIvar))
               else read_ivars_from_ivarlist_ptr bin objc_data_struct.ivars) with
        | .error e => .error e
        | .ok ivars =>
          .ok (⟨.cls objc_class_struct, symbol_name, selectors, ivars, protocols, none⟩, m2)

/-- `ObjcRuntimeDataParser._get_objc_class_from_classlist_pointer`: read the
class struct and mask the low 2 flag bits off the data pointer. -/
def get_objc_class_from_classlist_pointer
    (bin : MachoBinary) (class_struct_pointer : Nat) : ObjcClassRawStruct :=
  let class_entry := bin.class_struct_at class_struct_pointer
  -- class_entry.data &= ~0x3
  { class_entry with data := class_entry.data / 4 * 4 }

/-- `ObjcRuntimeDataParser._get_objc_data_from_objc_class`: a data struct
whose name pointer lies below the virtual base is rejected as invalid. -/
def get_objc_data_from_objc_class
    (bin : MachoBinary) (objc_class : ObjcClassRawStruct) : Option ObjcDataRawStruct :=
  let data_entry := bin.data_struct_at objc_class.data
  if data_entry.name < bin.virtual_base then none else some data_entry

/-- The metaclass half of the `_parse_objc_classes` loop body: parse the
metaclass class-data if it resolves, appending its (class-method) selectors
after the base class's instance selectors, or substituting for a missing
base; raise when neither this nor the base step produced a class.  The raw
struct passed to `_parse_objc_data_entry` is the base class struct, as in
the source. -/
def parse_classlist_entry_step2
    (bin : MachoBinary) (lit : SelectorLiteralToSelrefMap)
    (objc_class : ObjcClassRawStruct) (ptr : Nat)
    (parsed_class? : Option ObjcClass) (m1 : SelrefPtrToSelectorMap) :
    Except String (ObjcClass × SelrefPtrToSelectorMap) :=
  match get_objc_data_from_objc_class bin
      (get_objc_class_from_classlist_pointer bin objc_class.metaclass) with
  | some objc_data_struct =>
    match parse_objc_data_entry bin lit objc_class objc_data_struct m1 with
    | .error e => .error e
    | .ok (parsed_metaclass, m2) =>
      match parsed_class? with
      | some parsed_class =>
        .ok ({ parsed_class with
               selectors := parsed_class.selectors ++ parsed_metaclass.selectors }, m2)
      | none => .ok (parsed_metaclass, m2)
  | none =>
    match parsed_class? with
    | none => .error (("Failed to parse classref ") ++ hex_str ptr)
    | some parsed_class => .ok (parsed_class, m1)

/-- The loop body of `ObjcRuntimeDataParser._parse_objc_classes` for one
class-list pointer: parse the base class data if it resolves, then the
metaclass step.  `read_struct` always yields a truthy instance, so the
`if objc_class:` and `if metaclass:` guards in the source always pass. -/
def parse_classlist_entry
    (bin : MachoBinary) (lit : SelectorLiteralToSelrefMap) (ptr : Nat)
    (sel : SelrefPtrToSelectorMap) :
    Except String (ObjcClass × SelrefPtrToSelectorMap) :=
  match get_objc_data_from_objc_class bin
      (get_objc_class_from_classlist_pointer bin ptr) with
  | some objc_data_struct =>
    match parse_objc_data_entry bin lit (get_objc_class_from_classlist_pointer bin ptr)
        objc_data_struct sel with
    | .error e => .error e
    | .ok (parsed_class, m1) =>
      parse_classlist_entry_step2 bin lit (get_objc_class_from_classlist_pointer bin ptr)
        ptr (some parsed_class) m1
  | none =>
    parse_classlist_entry_step2 bin lit (get_objc_class_from_classlist_pointer bin ptr)
      ptr none sel

/-- `ObjcRuntimeDataParser._parse_objc_classes`. -/
def parse_objc_classes_loop
    (bin : MachoBinary) (lit : SelectorLiteralToSelrefMap) :
    List Nat → SelrefPtrToSelectorMap →
    Except String (List ObjcClass × SelrefPtrToSelectorMap)
  | [], sel => .ok ([], sel)
  | ptr :: rest, sel =>
    match parse_classlist_entry bin lit ptr sel with
    | .error e => .error e
    | .ok (parsed_class, m1) =>
      match parse_objc_classes_loop bin lit rest m1 with
      | .error e => .error e
      | .ok (classes, m2) => .ok (parsed_class :: classes, m2)

/-- `ObjcRuntimeDataParser._parse_objc_category_entry`: the base-class name
is always the `$_Unknown_Class` sentinel (resolving it via `__objc_classrefs`
is an acknowledged gap in the source). -/
def parse_objc_category_entry
    (bin : MachoBinary) (lit : SelectorLiteralToSelrefMap)
    (objc_category_struct : ObjcCategoryRawStruct) (sel : SelrefPtrToSelectorMap) :
    Except String (ObjcClass × SelrefPtrToSelectorMap) :=
  match truthy_string (bin.get_full_string_from_start_address objc_category_struct.name) with
  | none => .error (("Could not get symbol name for ") ++ toString objc_category_struct.name)
  | some symbol_name =>
    match read_selectors_from_optional_methlist bin lit
        objc_category_struct.instance_methods sel with
    | .error e => .error e
    | .ok (s1, m1) =>
      match read_selectors_from_optional_methlist bin lit
          objc_category_struct.class_methods m1 with
      | .error e => .error e
      | .ok (s2, m2) =>
        match (if objc_category_struct.base_protocols == 0 then
                 (.ok ([], m2) : Except String (List ObjcProtocol × SelrefPtrToSelectorMap))
               else parse_protocol_ptr_list bin lit
                 (protolist_ptr_to_protocol_ptr_list bin objc_category_struct.base_protocols) m2) with
        | .error e => .error e
        | .ok (protocols, m3) =>
          .ok (⟨.cat objc_category_struct,
                ("$_Unknown_Class") ++ (" (") ++ symbol_name ++ (")"),
                s1 ++ s2, [], protocols, some (("$_Unknown_Class"), symbol_name)⟩, m3)

/-- `ObjcRuntimeDataParser._parse_objc_categories`. -/
def parse_objc_categories_loop
    (bin : MachoBinary) (lit : SelectorLiteralToSelrefMap) :
    List Nat → SelrefPtrToSelectorMap →
    Except String (List ObjcClass × SelrefPtrToSelectorMap)
  | [], sel => .ok ([], sel)
  | ptr :: rest, sel =>
    match parse_objc_category_entry bin lit (bin.category_struct_at ptr) sel with
    | .error e => .error e
    | .ok (parsed_category, m1) =>
      match parse_objc_categories_loop bin lit rest m1 with
      | .error e => .error e
      | .ok (categories, m2) => .ok (parsed_category :: categories, m2)

/-- The fully parsed runtime model
(`ObjcRuntimeDataParser.__init__` output state). -/
structure ObjcRuntimeDataParser where
  classes : List ObjcClass
  protocols : List ObjcProtocol
  selref_ptr_to_selector_map : SelrefPtrToSelectorMap
  selector_literal_ptr_to_selref_map : SelectorLiteralToSelrefMap
deriving DecidableEq, Repr

/-- `ObjcRuntimeDataParser.__init__`: Phase 1 selrefs, then classes and
categories (`_parse_class_and_category_info`), then global protocols
(`_parse_global_protocol_info`).  The symbol-to-dylib map of Step 3 touches
none of this state and is omitted. -/
def objc_runtime_data_parser_init (bin : MachoBinary) : Except String ObjcRuntimeDataParser :=
  match parse_selrefs bin with
  | .error e => .error e
  | .ok (lit, sel0) =>
    match parse_objc_classes_loop bin lit bin.classlist_pointers sel0 with
    | .error e => .error e
    | .ok (classes1, sel1) =>
      match parse_objc_categories_loop bin lit bin.catlist_pointers sel1 with
      | .error e => .error e
      | .ok (categories, sel2) =>
        match parse_protocol_ptr_list bin lit bin.protolist_pointers sel2 with
        | .error e => .error e
        | .ok (protocols, sel3) =>
          .ok ⟨classes1 ++ categories, protocols, sel3, lit⟩

/- ## Function analyzer (objc_analyzer.py) -/

/-- Modelled from the spec: the external collaborators of
`ObjcFunctionAnalyzer` that are not under src/ -- `MachoAnalyzer`
(`get_function_instructions`, `imp_for_selref`) and the symbol knowledge
used by `ObjcBranchInstr` (whether a branch destination is the
`objc_msgSend` dispatch trampoline stub, whether it is an external native
symbol, and its symbol name). -/
structure AnalyzerEnv where
  functions : Nat → List Instr
  imp_for_selref : Int → Option Nat
  is_msgSend_stub : Nat → Bool
  is_external_c_symbol : Nat → Bool
  symbol_for_address : Nat → Option String

/-- The branch-target record built by `ObjcBranchInstr` and patched by
`ObjcFunctionAnalyzer.next_branch`. -/
structure ObjcBranchInstr where
  raw_instr : Instr
  destination_address : Option Nat
  symbol : Option String
  is_msgSend_call : Bool
  is_external_c_call : Bool
  is_external_objc_call : Bool
  selref : Option Int
deriving DecidableEq, Repr

/-- Modelled from the spec: the raw branch destination decoded from the
branch instruction operand (none when indirect/unresolved). -/
def raw_branch_destination (ins : Instr) : Option Nat :=
  match ins.operands with
  | .imm v :: _ => some v.toNat
  | _ => none

/-- Modelled from the spec: `ObjcBranchInstr(binary, instr)` construction
(the wrapped record before `next_branch` patches dynamic-dispatch calls):
classification by the fixed dispatch-trampoline symbol and the external
symbol table. -/
def init_branch_record (env : AnalyzerEnv) (ins : Instr) : ObjcBranchInstr :=
  let dest := raw_branch_destination ins
  { raw_instr := ins,
    destination_address := dest,
    symbol :=
      match dest with
      | some d => env.symbol_for_address d
      | none => none,
    is_msgSend_call :=
      match dest with
      | some d => env.is_msgSend_stub d
      | none => false,
    is_external_c_call :=
      match dest with
      | some d => env.is_external_c_symbol d
      | none => false,
    is_external_objc_call := false,
    selref := none }

/-- The objc_msgSend patching step of `ObjcFunctionAnalyzer.next_branch`:
`get_selref` (backward resolution of `x1`) and `imp_for_selref` run inside a
`try`; a RuntimeError is swallowed, leaving `selref = None` and
`sel_imp = None`.  A falsy `sel_imp` classifies the call external-dynamic.
The record destination is always rewritten to `sel_imp` -- the literal
trampoline target is intentionally discarded. -/
def resolve_msgSend_branch
    (env : AnalyzerEnv) (instrs : List Instr) (instr_idx : Nat)
    (branch_instr : ObjcBranchInstr) : ObjcBranchInstr :=
  if branch_instr.is_msgSend_call then
    match determine_register_contents instrs ("x1") instr_idx with
    | .error _ =>
      { branch_instr with
        selref := none,
        destination_address := none,
        is_external_objc_call := true }
    | .ok selref_val =>
      let sel_imp := env.imp_for_selref selref_val
      { branch_instr with
        selref := some selref_val,
        destination_address := sel_imp,
        is_external_objc_call := !(truthy_int sel_imp) }
  else branch_instr

def branch_mnemonics : List String := [("b"), ("bl"), ("bx"), ("blx"), ("bxj")]

/-- The scan of `ObjcFunctionAnalyzer.next_branch` over
`enumerate(self._instructions[start_index::])`, carrying absolute indices.
The absolute index of the matched instruction is returned alongside the
record: the source recovers it as `self._instructions.index(instr)`, which
equals the true position because capstone instruction objects compare by
identity and carry distinct addresses. -/
def next_branch_aux (env : AnalyzerEnv) (instrs : List Instr) :
    List (Nat × Instr) → Option (ObjcBranchInstr × Nat)
  | [] => none
  | (i, ins) :: rest =>
    if branch_mnemonics.contains ins.mnemonic then
      some (resolve_msgSend_branch env instrs i (init_branch_record env ins), i)
    else next_branch_aux env instrs rest

/-- `ObjcFunctionAnalyzer.next_branch`. -/
def next_branch (env : AnalyzerEnv) (instrs : List Instr) (start_index : Nat) :
    Option (ObjcBranchInstr × Nat) :=
  next_branch_aux env instrs (instrs.enum.drop start_index)

/-- The `call_targets` loop: repeated `next_branch`, restarting just after
the instruction of each found branch.  The fuel bounds the trip count; the
found index strictly increases each iteration, so `instrs.length + 1` trips
always suffice. -/
def call_targets_aux (env : AnalyzerEnv) (instrs : List Instr) :
    Nat → Nat → List ObjcBranchInstr
  | 0, _ => []
  | fuel + 1, last_branch_idx =>
    match next_branch env instrs last_branch_idx with
    | none => []
    | some (r, i) => r :: call_targets_aux env instrs fuel (i + 1)

/-- `ObjcFunctionAnalyzer.call_targets` (the memoization is an evaluation
cache in the source and does not change the computed list). -/
def call_targets (env : AnalyzerEnv) (instrs : List Instr) : List ObjcBranchInstr :=
  call_targets_aux env instrs (instrs.length + 1) 0

/-- `ObjcFunctionAnalyzer.is_local_branch`:
`start_address <= branch_instruction.destination_address <= end_address`.
Under Python 3 the chained comparison raises a TypeError when the record
carries no destination (`None`) -- which `next_branch` leaves on every
dynamic-dispatch record whose selector implementation was not resolved. -/
def is_local_branch (start_address end_address : Nat) (branch_instruction : ObjcBranchInstr) :
    Except String Bool :=
  match branch_instruction.destination_address with
  | some d => .ok (decide (start_address ≤ d) && decide (d ≤ end_address))
  | none => .error ("TypeError: comparison of int and NoneType")

/-- `ObjcFunctionAnalyzer.__init__` state: first/last instruction addresses
and the instruction list. -/
structure ObjcFunctionAnalyzer where
  start_address : Nat
  end_address : Nat
  instructions : List Instr
deriving DecidableEq, Repr

/-- `ObjcFunctionAnalyzer.__init__`: indexing an empty instruction list
raises IndexError, converted to
`RuntimeError("ObjcFunctionAnalyzer was passed invalid instructions")`. -/
def mk_function_analyzer (instrs : List Instr) : Except String ObjcFunctionAnalyzer :=
  match instrs.head?, instrs.getLast? with
  | some first, some last1 => .ok ⟨first.address, last1.address, instrs⟩
  | _, _ => .error ("ObjcFunctionAnalyzer was passed invalid instructions")

/-- The result of a `can_execute_call` run: a boolean, a propagated
RuntimeError (a recursive child analyzer constructed over an empty or
missing instruction stream), or exhaustion of the recursion budget
(the source recursion is unguarded; `fuelOut` models the
interpreter-stack limit). -/
inductive ExecResult where
  | ok (b : Bool)
  | err (msg : String)
  | fuelOut
deriving DecidableEq, Repr

/-- The loop body of `ObjcFunctionAnalyzer.can_execute_call` over
`call_targets`: direct-hit check first, then the external-native skip, then
the `is_local_branch` test -- which raises on a record without a
destination -- then the external-dynamic skip, whose debug call eagerly
evaluates `hex(int(target.selref))` and so raises when the selref is
`None`; an unskipped record is recursed into via a fresh analyzer
(`recurse`). -/
def can_execute_call_go (start_address end_address : Nat) (call_address : Nat)
    (recurse : Nat → ExecResult) : List ObjcBranchInstr → ExecResult
  | [] => .ok false
  | target :: rest =>
    if target.destination_address == some call_address then .ok true
    else if target.is_external_c_call && !target.is_msgSend_call then
      can_execute_call_go start_address end_address call_address recurse rest
    else
      match is_local_branch start_address end_address target with
      | .error e => .err e
      | .ok true => can_execute_call_go start_address end_address call_address recurse rest
      | .ok false =>
        if target.is_external_objc_call then
          match target.selref with
          | none => .err ("TypeError: int argument cannot be NoneType")
          | some _ => can_execute_call_go start_address end_address call_address recurse rest
        else
          match target.destination_address with
          -- unreachable: `is_local_branch` returned a boolean, so the
          -- destination is present
          | none => .err ("TypeError: comparison of int and NoneType")
          | some d =>
            match recurse d with
            | .ok true => .ok true
            | .ok false => can_execute_call_go start_address end_address call_address recurse rest
            | r => r

/-- `ObjcFunctionAnalyzer.can_execute_call`: depth-first recursive search
over `call_targets`; each recursion instantiates a fresh analyzer over the
callee instructions (`get_function_analyzer`), whose construction fails on
an empty stream. -/
def can_execute_call : Nat → AnalyzerEnv → List Instr → Nat → ExecResult
  | 0, _, _, _ => .fuelOut
  | fuel1 + 1, env, instrs, call_address =>
    can_execute_call_go
      ((instrs.head?.map Instr.address).getD 0)
      ((instrs.getLast?.map Instr.address).getD 0)
      call_address
      (fun d =>
        if (env.functions d).isEmpty then
          .err ("ObjcFunctionAnalyzer was passed invalid instructions")
        else can_execute_call fuel1 env (env.functions d) call_address)
      (call_targets env instrs)

/-- The reachability relation that `can_execute_call` computes whenever it
returns a boolean: some call-target record either hits the searched address
directly, or is followable (not external-native, carrying a destination
that is neither local nor dynamic-dispatch-external) and its callee reaches
the address within the remaining depth. -/
def reaches_within : Nat → AnalyzerEnv → List Instr → Nat → Bool
  | 0, _, _, _ => false
  | fuel1 + 1, env, instrs, call_address =>
    (call_targets env instrs).any fun target =>
      (target.destination_address == some call_address) ||
      (!(target.is_external_c_call && !target.is_msgSend_call) &&
       (match target.destination_address with
        | some d =>
          !(decide (((instrs.head?.map Instr.address).getD 0) ≤ d) &&
            decide (d ≤ (instrs.getLast?.map Instr.address).getD 0)) &&
          !target.is_external_objc_call &&
          (!(env.functions d).isEmpty &&
           reaches_within fuel1 env (env.functions d) call_address)
        | none => false))

/- ## Block analyzer (ObjcBlockAnalyzer) -/

/-- `ObjcFunctionAnalyzer.track_reg`: forward alias tracking of a register
value through `mov` instructions.  A `mov` with an operand count other than
two raises. -/
def track_reg_loop : List Instr → List String → Except String (List String)
  | [], regs_holding_value => .ok regs_holding_value
  | instr :: rest, regs_holding_value =>
    if instr.mnemonic == ("mov") then
      match instr.operands with
      | [op_dst, op_src] =>
        let src := op_value_reg_name op_src
        let dst := op_value_reg_name op_dst
        if regs_holding_value.contains src && !(regs_holding_value.contains dst) then
          track_reg_loop rest (regs_holding_value ++ [dst])
        else if regs_holding_value.contains dst && !(regs_holding_value.contains src) then
          track_reg_loop rest (regs_holding_value.erase dst)
        else
          track_reg_loop rest regs_holding_value
      | _ => .error ("Encountered mov with more than 2 operands!")
    else track_reg_loop rest regs_holding_value

def track_reg (instrs : List Instr) (reg : String) : Except String (List String) :=
  track_reg_loop instrs [reg]

/-- `ObjcBlockAnalyzer.find_block_load`: the first
`ldr <reg>, [<tracked>, #0x10]` (the block `invoke` field load); yields the
loaded register and the instruction index, or nothing (Python falls off the
loop returning None).  An `ldr` with an operand count other than two
raises. -/
def find_block_load_aux (registers_containing_block : List String) :
    List (Nat × Instr) → Except String (Option (String × Nat))
  | [] => .ok none
  | (index, instr) :: rest =>
    if instr.mnemonic == ("ldr") then
      match instr.operands with
      | [op_dst, op_src] =>
        match op_src with
        | .mem base disp =>
          if registers_containing_block.contains base && disp == 0x10 then
            .ok (some (op_value_reg_name op_dst, index))
          else find_block_load_aux registers_containing_block rest
        | _ => find_block_load_aux registers_containing_block rest
      | _ => .error ("Encountered ldr with more than 2 operands!")
    else find_block_load_aux registers_containing_block rest

def find_block_load (instrs : List Instr) (registers_containing_block : List String) :
    Except String (Option (String × Nat)) :=
  find_block_load_aux registers_containing_block instrs.enum

/-- `ObjcFunctionAnalyzer.next_blr_to_reg`: the next `blr` to the given
register at or after `start_index`.  The index is returned alongside (the
source recovers it by identity-based `list.index`). -/
def next_blr_to_reg_aux (reg : String) : List (Nat × Instr) → Option (Instr × Nat)
  | [] => none
  | (index, instr) :: rest =>
    if instr.mnemonic == ("blr") then
      match instr.operands with
      | op_dst :: _ =>
        if op_value_reg_name op_dst == reg then some (instr, index)
        else next_blr_to_reg_aux reg rest
      | [] => next_blr_to_reg_aux reg rest
    else next_blr_to_reg_aux reg rest

def next_blr_to_reg (instrs : List Instr) (reg : String) (start_index : Nat) :
    Option (Instr × Nat) :=
  next_blr_to_reg_aux reg (instrs.enum.drop start_index)

/-- `ObjcBlockAnalyzer.__init__` state. -/
structure ObjcBlockAnalyzer where
  start_address : Nat
  end_address : Nat
  instructions : List Instr
  registers_containing_block : List String
  load_reg : String
  load_index : Nat
  invoke_instr : Instr
  invoke_idx : Nat
deriving DecidableEq, Repr

/-- `ObjcBlockAnalyzer.__init__`: the superclass init (empty-stream check),
then `track_reg`, `find_block_load` (whose `None` makes the tuple unpacking
raise) and `find_block_invoke` (whose `None` makes
`self._instructions.index(None)` raise). -/
def mk_block_analyzer (instrs : List Instr) (initial_block_reg : String) :
    Except String ObjcBlockAnalyzer := do
  let fa ← mk_function_analyzer instrs
  let registers_containing_block ← track_reg instrs initial_block_reg
  let bl ← find_block_load instrs registers_containing_block
  match bl with
  | none => .error ("find_block_load returned None")
  | some (load_reg, load_index) =>
    match next_blr_to_reg instrs load_reg load_index with
    | none => .error ("find_block_invoke returned None")
    | some (invoke_instr, invoke_idx) =>
      .ok ⟨fa.start_address, fa.end_address, instrs, registers_containing_block,
           load_reg, load_index, invoke_instr, invoke_idx⟩

/-- The value `ObjcBlockAnalyzer.get_block_arg` returns: the decoded
immediate (movz) or a register name reported by capstone (mov). -/
inductive BlockArgValue where
  | imm (v : Int)
  | regName (r : String)
deriving DecidableEq, Repr

/-- The backward scan of `ObjcBlockAnalyzer.get_block_arg` from the
invocation site: the first `movz`/`mov` whose destination is the requested
argument register.  A `movz` yields `src.value.imm`; a `mov` yields
`instr.reg_name(src.value.reg)` regardless of the source operand kind.
(capstone `mov`/`movz` always decode two operands; fewer are skipped
here.) -/
def get_block_arg_scan (desired_register : String) : List Instr → Option BlockArgValue
  | [] => none
  | instr :: rest =>
    if instr.mnemonic == ("movz") || instr.mnemonic == ("mov") then
      match instr.operands with
      | op_dst :: op_src :: _ =>
        if op_value_reg_name op_dst == desired_register then
          if instr.mnemonic == ("movz") then some (.imm (op_value_imm op_src))
          else some (.regName (op_value_reg_name op_src))
        else get_block_arg_scan desired_register rest
      | _ => get_block_arg_scan desired_register rest
    else get_block_arg_scan desired_register rest

/-- `ObjcBlockAnalyzer.get_block_arg`
(`for instr in self._instructions[invoke_index::-1]`). -/
def get_block_arg (ba : ObjcBlockAnalyzer) (arg_index : Nat) : Option BlockArgValue :=
  get_block_arg_scan (("x") ++ toString arg_index)
    ((ba.instructions.take (ba.invoke_idx + 1)).reverse)

/- ## Shared helper lemmas -/

theorem truthy_string_some {x : Option String} {s : String}
    (h : truthy_string x = some s) : x = some s ∧ s ≠ ("") := by
  cases x with
  | none => simp [truthy_string] at h
  | some t =>
    simp only [truthy_string] at h
    cases ht : t.data with
    | nil => rw [ht] at h; simp at h
    | cons c cs =>
      rw [ht] at h
      simp only [Option.some.injEq] at h
      subst h
      refine ⟨rfl, ?_⟩
      intro he
      rw [he] at ht
      have h0 : ("" : String).data = [] := rfl
      rw [h0] at ht
      cases ht

theorem truthy_string_of_ne {s : String} (h1 : s ≠ ("")) :
    truthy_string (some s) = some s := by
  simp only [truthy_string]
  cases ht : s.data with
  | nil =>
    exfalso
    apply h1
    cases s with
    | mk d =>
      have hd : d = [] := ht
      rw [hd]
  | cons c cs => rfl

/- ## C6: the mov-chain backward-resolution example -/

/-- The instruction sequence of claim C6: `mov x8, #0x100`, then
`mov x22, x8`, an unrelated instruction, then `mov x1, x22`. -/
def c6_instrs : List Instr :=
  [⟨0, ("mov"), [.reg ("x8"), .imm 0x100]⟩,
   ⟨4, ("mov"), [.reg ("x22"), .reg ("x8")]⟩,
   ⟨8, ("nop"), []⟩,
   ⟨12, ("mov"), [.reg ("x1"), .reg ("x22")]⟩]

/-- C6: resolving `x1` at the index of `mov x1, x22`, with `mov x22, x8` and
`mov x8, #0x100` earlier in the stream, returns 0x100: the pending-link
chain x1 -> x22 -> x8 is resolved, summing zero offsets. -/
theorem c6_mov_chain_resolves_to_0x100 :
    determine_register_contents c6_instrs ("x1") 3 = .ok 0x100 := by decide

/- ## C5: stack-pointer dependencies in backward resolution -/

/-- C5 counterexample: in `mov sp, #0x1000 ; ldr x1, [sp, #0x10]` the value
of `x1` is derived only through the stack pointer, yet resolving `x1` at the
`ldr` does not raise a data-flow error: the scan continues past the
stack-pointer dependency, resolves `sp` itself, and returns 0x1010. -/
theorem c5_counterexample :
    determine_register_contents
      [⟨0, ("mov"), [.reg ("sp"), .imm 0x1000]⟩,
       ⟨4, ("ldr"), [.reg ("x1"), .mem ("sp") 0x10]⟩]
      ("x1") 1 = .ok 0x1010 := by decide

/-- C5 (amended): when the only assignment to the queried register in the
scanned range is `ldr x1, [sp, #d]` and nothing assigns `sp`, resolution
fails with a catchable data-flow error -- raised only after the backward
scan completes (as the unresolved-unknowns error), not as soon as the stack
pointer becomes a dependency; if an earlier instruction determines `sp`,
resolution instead succeeds with the loaded stack slot address. -/
theorem c5_amended_sp_dependency :
    (∀ (a : Nat) (d : Int),
      determine_register_contents
        [⟨a, ("ldr"), [.reg ("x1"), .mem ("sp") d]⟩] ("x1") 0
        = .error ("Data-flow loop exited before all unknowns were marked")) ∧
    (∀ (a b : Nat) (v d : Int),
      determine_register_contents
        [⟨a, ("mov"), [.reg ("sp"), .imm v]⟩,
         ⟨b, ("ldr"), [.reg ("x1"), .mem ("sp") d]⟩] ("x1") 1
        = .ok (v + d)) := by
  constructor
  · intro a d
    rfl
  · intro a b v d
    rfl

/-- C5 witness: the amended theorem applied at a concrete displacement and
stack value. -/
theorem c5_amended_sp_dependency_witness :
    determine_register_contents
      [⟨0, ("ldr"), [.reg ("x1"), .mem ("sp") 0x10]⟩] ("x1") 0
      = .error ("Data-flow loop exited before all unknowns were marked") ∧
    determine_register_contents
      [⟨0, ("mov"), [.reg ("sp"), .imm 0x1000]⟩,
       ⟨4, ("ldr"), [.reg ("x1"), .mem ("sp") 0x10]⟩] ("x1") 1
      = .ok 0x1010 :=
  ⟨c5_amended_sp_dependency.1 0 0x10, c5_amended_sp_dependency.2 0 4 0x1000 0x10⟩

/- ## C10: analyzer construction invariants -/

/-- C10: constructing a function analyzer (or block analyzer) over an empty
instruction list raises; every successfully constructed analyzer has a
non-empty instruction list, and start/end addresses equal to the first/last
instruction addresses. -/
theorem c10_analyzer_init_invariants :
    (mk_function_analyzer [] = .error ("ObjcFunctionAnalyzer was passed invalid instructions")) ∧
    (∀ reg : String,
      mk_block_analyzer [] reg
        = .error ("ObjcFunctionAnalyzer was passed invalid instructions")) ∧
    (∀ (instrs : List Instr) (fa : ObjcFunctionAnalyzer),
      mk_function_analyzer instrs = .ok fa →
      instrs ≠ [] ∧ fa.instructions = instrs ∧
      (∃ first, instrs.head? = some first ∧ fa.start_address = first.address) ∧
      (∃ last1, instrs.getLast? = some last1 ∧ fa.end_address = last1.address)) := by
  refine ⟨rfl, fun reg => rfl, ?_⟩
  intro instrs fa h
  match instrs with
  | [] => simp [mk_function_analyzer] at h
  | a :: l =>
    match hg : (a :: l).getLast? with
    | none => simp [List.getLast?] at hg
    | some b =>
      unfold mk_function_analyzer at h
      rw [List.head?_cons, hg] at h
      simp only [Except.ok.injEq] at h
      subst h
      exact ⟨by simp, rfl, ⟨a, rfl, rfl⟩, ⟨b, rfl, rfl⟩⟩

/-- C10 witness: the construction invariants at a concrete two-instruction
stream. -/
theorem c10_analyzer_init_invariants_witness :
    ([⟨0x100, ("nop"), []⟩, ⟨0x104, ("ret"), []⟩] : List Instr) ≠ [] ∧
    (ObjcFunctionAnalyzer.mk 0x100 0x104 [⟨0x100, ("nop"), []⟩, ⟨0x104, ("ret"), []⟩]).instructions
      = [⟨0x100, ("nop"), []⟩, ⟨0x104, ("ret"), []⟩] ∧
    (∃ first, ([⟨0x100, ("nop"), []⟩, ⟨0x104, ("ret"), []⟩] : List Instr).head? = some first ∧
      (ObjcFunctionAnalyzer.mk 0x100 0x104 [⟨0x100, ("nop"), []⟩, ⟨0x104, ("ret"), []⟩]).start_address
        = first.address) ∧
    (∃ last1, ([⟨0x100, ("nop"), []⟩, ⟨0x104, ("ret"), []⟩] : List Instr).getLast? = some last1 ∧
      (ObjcFunctionAnalyzer.mk 0x100 0x104 [⟨0x100, ("nop"), []⟩, ⟨0x104, ("ret"), []⟩]).end_address
        = last1.address) :=
  c10_analyzer_init_invariants.2.2
    [⟨0x100, ("nop"), []⟩, ⟨0x104, ("ret"), []⟩]
    (ObjcFunctionAnalyzer.mk 0x100 0x104 [⟨0x100, ("nop"), []⟩, ⟨0x104, ("ret"), []⟩])
    (by decide)

/- ## C9: captured-argument recovery (get_block_arg) -/

/-- Whether an instruction is the assignment `get_block_arg` scans for: a
`mov`/`movz` (with capstone's two decoded operands) whose destination
register is the requested argument register. -/
def block_arg_assignment_match (desired_register : String) (instr : Instr) : Bool :=
  (instr.mnemonic == ("movz") || instr.mnemonic == ("mov")) &&
  (match instr.operands with
   | o0 :: _ :: _ => op_value_reg_name o0 == desired_register
   | _ => false)

theorem get_block_arg_scan_cons (d : String) (j : Instr) (l : List Instr) :
    get_block_arg_scan d (j :: l) =
      if j.mnemonic == ("movz") || j.mnemonic == ("mov") then
        match j.operands with
        | o0 :: o1 :: _ =>
          if op_value_reg_name o0 == d then
            if j.mnemonic == ("movz") then some (.imm (op_value_imm o1))
            else some (.regName (op_value_reg_name o1))
          else get_block_arg_scan d l
        | _ => get_block_arg_scan d l
      else get_block_arg_scan d l := rfl

theorem get_block_arg_scan_skip (d : String) (j : Instr) (l : List Instr)
    (h : block_arg_assignment_match d j = false) :
    get_block_arg_scan d (j :: l) = get_block_arg_scan d l := by
  unfold block_arg_assignment_match at h
  by_cases h1 : (j.mnemonic == ("movz") || j.mnemonic == ("mov")) = true
  · rw [h1] at h
    simp only [Bool.true_and] at h
    match ho : j.operands with
    | [] => rw [get_block_arg_scan_cons, if_pos h1, ho]
    | [o0] => rw [get_block_arg_scan_cons, if_pos h1, ho]
    | o0 :: o1 :: os =>
      rw [ho] at h
      have h2 : (op_value_reg_name o0 == d) = false := h
      have hred : get_block_arg_scan d (j :: l) =
          (if op_value_reg_name o0 == d then
            (if j.mnemonic == ("movz") then some (.imm (op_value_imm o1))
             else some (.regName (op_value_reg_name o1)))
           else get_block_arg_scan d l) := by
        rw [get_block_arg_scan_cons, if_pos h1, ho]
      rw [hred, if_neg (by rw [h2]; exact Bool.false_ne_true)]
  · rw [get_block_arg_scan_cons, if_neg h1]

theorem get_block_arg_scan_append_skip (d : String) (pre : List Instr) (l : List Instr)
    (hpre : ∀ j ∈ pre, block_arg_assignment_match d j = false) :
    get_block_arg_scan d (pre ++ l) = get_block_arg_scan d l := by
  induction pre with
  | nil => rfl
  | cons j pre2 ih =>
    rw [List.cons_append, get_block_arg_scan_skip d j _ (hpre j (by simp)),
        ih (fun j2 hj2 => hpre j2 (by simp [hj2]))]

theorem get_block_arg_scan_cons_match (d : String) (i : Instr) (l : List Instr)
    (o0 o1 : Operand) (os : List Operand)
    (hops : i.operands = o0 :: o1 :: os)
    (hmn : (i.mnemonic == ("movz") || i.mnemonic == ("mov")) = true)
    (hdst : (op_value_reg_name o0 == d) = true) :
    get_block_arg_scan d (i :: l) =
      (if i.mnemonic == ("movz") then some (.imm (op_value_imm o1))
       else some (.regName (op_value_reg_name o1))) := by
  have hred : get_block_arg_scan d (i :: l) =
      (if op_value_reg_name o0 == d then
        (if i.mnemonic == ("movz") then some (.imm (op_value_imm o1))
         else some (.regName (op_value_reg_name o1)))
       else get_block_arg_scan d l) := by
    rw [get_block_arg_scan_cons, if_pos hmn, hops]
  rw [hred, if_pos hdst]

/-- C9 (amended): scanning backward from the block-invocation instruction
for the most recent `mov`/`movz` whose destination is the ABI argument
register, `get_block_arg` returns the literal immediate only when that
instruction is a `movz` (whose decoded source operand is the immediate);
when it is a `mov` it returns capstone's register-name reading of the
source operand -- the source register's name when the value is
register-borne, and a register-name reinterpretation of the immediate
(never the immediate itself) when a `mov` carries an immediate source. -/
theorem c9_block_arg_recovery
    (ba : ObjcBlockAnalyzer) (arg_index : Nat)
    (pre : List Instr) (i : Instr) (rest : List Instr)
    (hsplit : (ba.instructions.take (ba.invoke_idx + 1)).reverse = pre ++ i :: rest)
    (hpre : ∀ j ∈ pre, block_arg_assignment_match (("x") ++ toString arg_index) j = false)
    (hmatch : block_arg_assignment_match (("x") ++ toString arg_index) i = true) :
    ∀ o0 o1 os, i.operands = o0 :: o1 :: os →
      ((i.mnemonic = ("movz") →
         get_block_arg ba arg_index = some (.imm (op_value_imm o1))) ∧
       (∀ v : Int, i.mnemonic = ("movz") → o1 = .imm v →
         get_block_arg ba arg_index = some (.imm v)) ∧
       (i.mnemonic = ("mov") →
         get_block_arg ba arg_index = some (.regName (op_value_reg_name o1))) ∧
       (∀ r : String, i.mnemonic = ("mov") → o1 = .reg r →
         get_block_arg ba arg_index = some (.regName r))) := by
  intro o0 o1 os hops
  unfold block_arg_assignment_match at hmatch
  rw [hops] at hmatch
  have hmn : (i.mnemonic == ("movz") || i.mnemonic == ("mov")) = true := by
    cases hx : (i.mnemonic == ("movz") || i.mnemonic == ("mov")) with
    | true => rfl
    | false => rw [hx] at hmatch; simp at hmatch
  have hdst : (op_value_reg_name o0 == (("x") ++ toString arg_index)) = true := by
    rw [hmn] at hmatch
    simpa using hmatch
  have hbase : get_block_arg ba arg_index =
      (if i.mnemonic == ("movz") then some (.imm (op_value_imm o1))
       else some (.regName (op_value_reg_name o1))) := by
    unfold get_block_arg
    rw [hsplit, get_block_arg_scan_append_skip _ pre _ hpre,
        get_block_arg_scan_cons_match _ i rest o0 o1 os hops hmn hdst]
  refine ⟨?_, ?_, ?_, ?_⟩
  · intro hz
    rw [hbase, if_pos (by rw [hz]; rfl)]
  · intro v hz ho1
    rw [hbase, if_pos (by rw [hz]; rfl), ho1]
    rfl
  · intro hv
    rw [hbase, if_neg (by rw [hv]; exact (by decide))]
  · intro r hv ho1
    rw [hbase, if_neg (by rw [hv]; exact (by decide)), ho1]
    rfl

/-- The C9 counterexample block function: the block pointer arrives in x0,
its invoke field is loaded into x9, argument 1 is assigned by
`mov x1, #5` (an immediate source), and the block is invoked. -/
def c9_cex_instrs : List Instr :=
  [⟨0, ("ldr"), [.reg ("x9"), .mem ("x0") 0x10]⟩,
   ⟨4, ("mov"), [.reg ("x1"), .imm 5]⟩,
   ⟨8, ("blr"), [.reg ("x9")]⟩]

/-- C9 counterexample: with the argument assigned by `mov x1, #5` -- an
assignment whose source operand is an immediate -- `get_block_arg(1)` does
not return the literal immediate 5: it returns capstone's register-name
reinterpretation of the immediate (`reg_name(src.value.reg)` is evaluated
for a `mov` regardless of the source operand kind). -/
theorem c9_counterexample :
    (mk_block_analyzer c9_cex_instrs ("x0")).map (fun ba => get_block_arg ba 1)
      = .ok (some (.regName ("capstone_reg_5"))) := by decide

def c9_witness_instrs : List Instr :=
  [⟨0, ("ldr"), [.reg ("x9"), .mem ("x0") 0x10]⟩,
   ⟨4, ("movz"), [.reg ("x1"), .imm 7]⟩,
   ⟨8, ("blr"), [.reg ("x9")]⟩]

def c9_witness_ba : ObjcBlockAnalyzer :=
  ⟨0, 8, c9_witness_instrs, [("x0")], ("x9"), 0, ⟨8, ("blr"), [.reg ("x9")]⟩, 2⟩

/-- C9 witness: for a block analyzer constructed over a concrete stream, a
`movz x1, #7` assignment is recovered as the literal immediate 7. -/
theorem c9_block_arg_recovery_witness :
    mk_block_analyzer c9_witness_instrs ("x0") = .ok c9_witness_ba ∧
    get_block_arg c9_witness_ba 1 = some (.imm 7) :=
  ⟨by decide,
   ((c9_block_arg_recovery c9_witness_ba 1
      [⟨8, ("blr"), [.reg ("x9")]⟩] ⟨4, ("movz"), [.reg ("x1"), .imm 7]⟩
      [⟨0, ("ldr"), [.reg ("x9"), .mem ("x0") 0x10]⟩]
      (by decide) (by decide) (by decide))
      (.reg ("x1")) (.imm 7) [] (by decide)).2.1 7 (by decide) (by decide)⟩

/- ## C2: dynamic-dispatch classification in next_branch -/

theorem next_branch_aux_spec (env : AnalyzerEnv) (instrs : List Instr)
    (l : List (Nat × Instr)) (r : ObjcBranchInstr) (i : Nat)
    (hmem : ∀ p ∈ l, instrs[p.1]? = some p.2)
    (h : next_branch_aux env instrs l = some (r, i)) :
    ∃ ins, instrs[i]? = some ins ∧ branch_mnemonics.contains ins.mnemonic = true ∧
      r = resolve_msgSend_branch env instrs i (init_branch_record env ins) := by
  induction l with
  | nil => simp [next_branch_aux] at h
  | cons p rest ih =>
    obtain ⟨pi, pins⟩ := p
    by_cases hb : branch_mnemonics.contains pins.mnemonic
    · rw [next_branch_aux, if_pos hb] at h
      simp only [Option.some.injEq, Prod.mk.injEq] at h
      obtain ⟨hr, hi⟩ := h
      refine ⟨pins, ?_, hb, ?_⟩
      · rw [← hi]
        exact hmem (pi, pins) (by simp)
      · rw [← hr, ← hi]
    · rw [next_branch_aux, if_neg hb] at h
      exact ih (fun p2 hp2 => hmem p2 (by simp [hp2])) h

theorem resolve_msgSend_branch_error_case (env : AnalyzerEnv) (instrs : List Instr)
    (idx : Nat) (b : ObjcBranchInstr) (e : String)
    (hmsg : b.is_msgSend_call = true)
    (herr : determine_register_contents instrs ("x1") idx = .error e) :
    resolve_msgSend_branch env instrs idx b
      = { b with selref := none, destination_address := none,
                 is_external_objc_call := true } := by
  unfold resolve_msgSend_branch
  rw [if_pos hmsg, herr]

theorem resolve_msgSend_branch_ok_case (env : AnalyzerEnv) (instrs : List Instr)
    (idx : Nat) (b : ObjcBranchInstr) (v : Int)
    (hmsg : b.is_msgSend_call = true)
    (hok : determine_register_contents instrs ("x1") idx = .ok v) :
    resolve_msgSend_branch env instrs idx b
      = { b with selref := some v, destination_address := env.imp_for_selref v,
                 is_external_objc_call := !(truthy_int (env.imp_for_selref v)) } := by
  unfold resolve_msgSend_branch
  rw [if_pos hmsg, hok]

/-- C2: for every branch that `next_branch` recognizes as a dynamic-dispatch
(objc_msgSend) call: a data-flow error from backward resolution of the
selector argument, or a falsy resolved implementation, classifies the
record external-dynamic without propagating the error; otherwise the
record's destination is rewritten to the resolved implementation address,
never left as the dispatch-trampoline address.  The final conjunct ties
every record `next_branch` returns to this classification. -/
theorem c2_msgSend_call_classification :
    (∀ (env : AnalyzerEnv) (instrs : List Instr) (idx : Nat) (b : ObjcBranchInstr),
      b.is_msgSend_call = true →
      ((∀ e, determine_register_contents instrs ("x1") idx = .error e →
        resolve_msgSend_branch env instrs idx b
          = { b with selref := none, destination_address := none,
                     is_external_objc_call := true }) ∧
       (∀ v, determine_register_contents instrs ("x1") idx = .ok v →
        truthy_int (env.imp_for_selref v) = false →
        (resolve_msgSend_branch env instrs idx b).is_external_objc_call = true ∧
        (resolve_msgSend_branch env instrs idx b).destination_address = env.imp_for_selref v ∧
        (resolve_msgSend_branch env instrs idx b).selref = some v) ∧
       (∀ v w, determine_register_contents instrs ("x1") idx = .ok v →
        env.imp_for_selref v = some w → ¬(w = 0) →
        resolve_msgSend_branch env instrs idx b
          = { b with selref := some v, destination_address := some w,
                     is_external_objc_call := false }))) ∧
    (∀ (env : AnalyzerEnv) (instrs : List Instr) (start_index : Nat)
       (r : ObjcBranchInstr) (i : Nat),
      next_branch env instrs start_index = some (r, i) →
      ∃ ins, instrs[i]? = some ins ∧ branch_mnemonics.contains ins.mnemonic = true ∧
        r = resolve_msgSend_branch env instrs i (init_branch_record env ins)) := by
  constructor
  · intro env instrs idx b hmsg
    refine ⟨?_, ?_, ?_⟩
    · intro e herr
      exact resolve_msgSend_branch_error_case env instrs idx b e hmsg herr
    · intro v hok htr
      rw [resolve_msgSend_branch_ok_case env instrs idx b v hmsg hok]
      refine ⟨?_, rfl, rfl⟩
      have hneg : (!truthy_int (env.imp_for_selref v)) = true := by
        rw [htr]
        rfl
      exact hneg
    · intro v w hok himp hw
      rw [resolve_msgSend_branch_ok_case env instrs idx b v hmsg hok, himp]
      have htr : truthy_int (some w) = true := by
        unfold truthy_int
        simp [hw]
      rw [htr]
      rfl
  · intro env instrs start_index r i h
    apply next_branch_aux_spec env instrs (instrs.enum.drop start_index) r i
    · intro p hp
      have hp2 : p ∈ instrs.enum := List.mem_of_mem_drop hp
      exact List.mem_enum_iff_getElem?.mp hp2
    · exact h

/-- The external knowledge for the C2 witness: address 0x9000 is the
objc_msgSend stub, and selref 0x5000 has a local implementation at
0x4000. -/
def c2_witness_env : AnalyzerEnv := {
  functions := fun _ => [],
  imp_for_selref := fun v => if v == 0x5000 then some 0x4000 else none,
  is_msgSend_stub := fun d => d == 0x9000,
  is_external_c_symbol := fun d => d == 0x9000,
  symbol_for_address := fun d => if d == 0x9000 then some ("_objc_msgSend") else none }

def c2_witness_instrs : List Instr :=
  [⟨0, ("mov"), [.reg ("x1"), .imm 0x5000]⟩, ⟨4, ("bl"), [.imm 0x9000]⟩]

def c2_witness_record : ObjcBranchInstr :=
  ⟨⟨4, ("bl"), [.imm 0x9000]⟩, some 0x4000, some ("_objc_msgSend"),
   true, true, false, some 0x5000⟩

/-- C2 witness: at a concrete dispatch site whose selector argument resolves
to selref 0x5000 with local implementation 0x4000, the branch record is
rewritten to destination 0x4000 and not classified external. -/
theorem c2_msgSend_call_classification_witness :
    (resolve_msgSend_branch c2_witness_env c2_witness_instrs 1
        (init_branch_record c2_witness_env ⟨4, ("bl"), [.imm 0x9000]⟩)
      = { init_branch_record c2_witness_env ⟨4, ("bl"), [.imm 0x9000]⟩ with
          selref := some 0x5000, destination_address := some 0x4000,
          is_external_objc_call := false }) ∧
    (∃ ins, c2_witness_instrs[1]? = some ins ∧
      branch_mnemonics.contains ins.mnemonic = true ∧
      c2_witness_record
        = resolve_msgSend_branch c2_witness_env c2_witness_instrs 1
            (init_branch_record c2_witness_env ins)) :=
  ⟨(c2_msgSend_call_classification.1 c2_witness_env c2_witness_instrs 1
      (init_branch_record c2_witness_env ⟨4, ("bl"), [.imm 0x9000]⟩)
      (by decide)).2.2 0x5000 0x4000 (by decide) (by decide) (by decide),
   c2_msgSend_call_classification.2 c2_witness_env c2_witness_instrs 0
      c2_witness_record 1 (by decide)⟩

/- ## C4: recursive reachability (can_execute_call) -/

/-- The skip conditions of the `can_execute_call` loop for a target record
that is not a direct hit: external native call; local branch; external
dynamic dispatch with a recorded selref (a record without a destination, or
an external-dynamic record without a selref, raises instead of skipping). -/
def skipped_target (start_address end_address : Nat) (t : ObjcBranchInstr) : Bool :=
  (t.is_external_c_call && !t.is_msgSend_call) ||
  (match t.destination_address with
   | none => false
   | some d =>
     (decide (start_address ≤ d) && decide (d ≤ end_address)) ||
     (t.is_external_objc_call && t.selref.isSome))

/-- A call-target record the `can_execute_call` loop recurses into: an
internal, non-local, non-dynamic-dispatch call carrying a destination. -/
def followable_target (start_address end_address : Nat) (t : ObjcBranchInstr) : Bool :=
  !(t.is_external_c_call && !t.is_msgSend_call) &&
  !t.is_external_objc_call &&
  (match t.destination_address with
   | none => false
   | some d => !(decide (start_address ≤ d) && decide (d ≤ end_address)))

theorem can_execute_call_go_cons (sA eA T : Nat) (recurse : Nat → ExecResult)
    (t : ObjcBranchInstr) (rest : List ObjcBranchInstr) :
    can_execute_call_go sA eA T recurse (t :: rest) =
      (if t.destination_address == some T then .ok true
       else if t.is_external_c_call && !t.is_msgSend_call then
         can_execute_call_go sA eA T recurse rest
       else
         match is_local_branch sA eA t with
         | .error e => .err e
         | .ok true => can_execute_call_go sA eA T recurse rest
         | .ok false =>
           if t.is_external_objc_call then
             match t.selref with
             | none => .err ("TypeError: int argument cannot be NoneType")
             | some _ => can_execute_call_go sA eA T recurse rest
           else
             match t.destination_address with
             | none => .err ("TypeError: comparison of int and NoneType")
             | some d =>
               match recurse d with
               | .ok true => .ok true
               | .ok false => can_execute_call_go sA eA T recurse rest
               | r => r) := rfl

theorem can_execute_call_go_skip (sA eA T : Nat) (recurse : Nat → ExecResult)
    (t : ObjcBranchInstr) (rest : List ObjcBranchInstr)
    (hnd : (t.destination_address == some T) = false)
    (hskip : skipped_target sA eA t = true) :
    can_execute_call_go sA eA T recurse (t :: rest)
      = can_execute_call_go sA eA T recurse rest := by
  rw [can_execute_call_go_cons, if_neg (by rw [hnd]; exact Bool.false_ne_true)]
  by_cases h1 : (t.is_external_c_call && !t.is_msgSend_call) = true
  · rw [if_pos h1]
  · rw [if_neg h1]
    unfold skipped_target at hskip
    rw [Bool.or_eq_true] at hskip
    rcases hskip with h | h
    · exact absurd h h1
    · cases hd : t.destination_address with
      | none =>
        rw [hd] at h
        cases h
      | some d =>
        rw [hd] at h
        have h3 : ((decide (sA ≤ d) && decide (d ≤ eA)) ||
            (t.is_external_objc_call && t.selref.isSome)) = true := h
        have hil : is_local_branch sA eA t = .ok (decide (sA ≤ d) && decide (d ≤ eA)) := by
          unfold is_local_branch
          rw [hd]
        rw [hil]
        cases hr : (decide (sA ≤ d) && decide (d ≤ eA)) with
        | true => rfl
        | false =>
          rw [hr, Bool.false_or, Bool.and_eq_true] at h3
          show (if t.is_external_objc_call then
              (match t.selref with
               | none => ExecResult.err ("TypeError: int argument cannot be NoneType")
               | some _ => can_execute_call_go sA eA T recurse rest)
            else
              match recurse d with
              | ExecResult.ok true => ExecResult.ok true
              | ExecResult.ok false => can_execute_call_go sA eA T recurse rest
              | r2 => r2) = can_execute_call_go sA eA T recurse rest
          rw [if_pos h3.1]
          cases hs : t.selref with
          | none =>
            rw [hs] at h3
            exact absurd h3.2 (by decide)
          | some sr => rfl

theorem can_execute_call_go_append_skip (sA eA T : Nat) (recurse : Nat → ExecResult)
    (pre l : List ObjcBranchInstr)
    (hpre : ∀ s ∈ pre, (s.destination_address == some T) = false ∧
      skipped_target sA eA s = true) :
    can_execute_call_go sA eA T recurse (pre ++ l)
      = can_execute_call_go sA eA T recurse l := by
  induction pre with
  | nil => rfl
  | cons s pre2 ih =>
    rw [List.cons_append,
        can_execute_call_go_skip sA eA T recurse s _ (hpre s (by simp)).1 (hpre s (by simp)).2,
        ih (fun s2 hs2 => hpre s2 (by simp [hs2]))]

/-- One step of the reachability relation: a target is productive when it
hits the searched address directly, or is followable and its callee (per
`childReach`) reaches the address. -/
def reach_target_step (sA eA T : Nat) (childReach : Nat → Bool) (t : ObjcBranchInstr) : Bool :=
  (t.destination_address == some T) ||
  (!(t.is_external_c_call && !t.is_msgSend_call) &&
   (match t.destination_address with
    | some d =>
      !(decide (sA ≤ d) && decide (d ≤ eA)) &&
      !t.is_external_objc_call &&
      childReach d
    | none => false))

theorem can_execute_call_go_cons_recurse_true (sA eA T : Nat) (recurse : Nat → ExecResult)
    (t : ObjcBranchInstr) (rest : List ObjcBranchInstr) (d : Nat)
    (hnd : (t.destination_address == some T) = false)
    (hfol : followable_target sA eA t = true)
    (hd : t.destination_address = some d)
    (hrec : recurse d = .ok true) :
    can_execute_call_go sA eA T recurse (t :: rest) = .ok true := by
  unfold followable_target at hfol
  rw [hd] at hfol
  simp only [Bool.and_eq_true, Bool.not_eq_true'] at hfol
  rw [can_execute_call_go_cons,
      if_neg (by rw [hnd]; exact Bool.false_ne_true),
      if_neg (by rw [hfol.1.1]; exact Bool.false_ne_true)]
  have hil : is_local_branch sA eA t = .ok (decide (sA ≤ d) && decide (d ≤ eA)) := by
    unfold is_local_branch
    rw [hd]
  rw [hil, hfol.2]
  show (if t.is_external_objc_call then
      (match t.selref with
       | none => ExecResult.err ("TypeError: int argument cannot be NoneType")
       | some _ => can_execute_call_go sA eA T recurse rest)
    else
      match t.destination_address with
      | none => ExecResult.err ("TypeError: comparison of int and NoneType")
      | some d2 =>
        match recurse d2 with
        | ExecResult.ok true => ExecResult.ok true
        | ExecResult.ok false => can_execute_call_go sA eA T recurse rest
        | r2 => r2) = .ok true
  rw [if_neg (by rw [hfol.1.2]; exact Bool.false_ne_true), hd]
  show (match recurse d with
        | ExecResult.ok true => ExecResult.ok true
        | ExecResult.ok false => can_execute_call_go sA eA T recurse rest
        | r2 => r2) = .ok true
  rw [hrec]

theorem can_execute_call_go_agree (sA eA T : Nat) (recurse : Nat → ExecResult)
    (childReach : Nat → Bool)
    (hrec : ∀ d b2, recurse d = .ok b2 → b2 = childReach d) :
    ∀ (ts : List ObjcBranchInstr) (r : Bool),
      can_execute_call_go sA eA T recurse ts = .ok r →
      r = ts.any (reach_target_step sA eA T childReach) := by
  intro ts
  induction ts with
  | nil =>
    intro r h
    have h5 : ExecResult.ok false = .ok r := h
    cases h5
    simp
  | cons t rest ih =>
    intro r h
    rw [can_execute_call_go_cons] at h
    rw [List.any_cons]
    cases h1 : (t.destination_address == some T) with
    | true =>
      rw [if_pos h1] at h
      have h5 : ExecResult.ok true = .ok r := h
      cases h5
      simp [reach_target_step, h1]
    | false =>
      rw [if_neg (by rw [h1]; exact Bool.false_ne_true)] at h
      cases h2 : (t.is_external_c_call && !t.is_msgSend_call) with
      | true =>
        rw [if_pos h2] at h
        have hpt : reach_target_step sA eA T childReach t = false := by
          simp [reach_target_step, h1, h2]
        rw [hpt, Bool.false_or]
        exact ih r h
      | false =>
        rw [if_neg (by rw [h2]; exact Bool.false_ne_true)] at h
        cases hd : t.destination_address with
        | none =>
          have hil : is_local_branch sA eA t
              = .error ("TypeError: comparison of int and NoneType") := by
            unfold is_local_branch
            rw [hd]
          rw [hil] at h
          have h6 : ExecResult.err ("TypeError: comparison of int and NoneType")
              = .ok r := h
          cases h6
        | some d =>
          have hil : is_local_branch sA eA t = .ok (decide (sA ≤ d) && decide (d ≤ eA)) := by
            unfold is_local_branch
            rw [hd]
          have h1d : ((some d : Option Nat) == some T) = false := hd ▸ h1
          rw [hil] at h
          cases h3 : (decide (sA ≤ d) && decide (d ≤ eA)) with
          | true =>
            rw [h3] at h
            have h7 : can_execute_call_go sA eA T recurse rest = .ok r := h
            have hpt : reach_target_step sA eA T childReach t = false := by
              simp [reach_target_step, h1d, hd, h3]
            rw [hpt, Bool.false_or]
            exact ih r h7
          | false =>
            rw [h3] at h
            have h6 : (if t.is_external_objc_call then
                (match t.selref with
                 | none => ExecResult.err ("TypeError: int argument cannot be NoneType")
                 | some _ => can_execute_call_go sA eA T recurse rest)
              else
                match t.destination_address with
                | none => ExecResult.err ("TypeError: comparison of int and NoneType")
                | some d2 =>
                  match recurse d2 with
                  | ExecResult.ok true => ExecResult.ok true
                  | ExecResult.ok false => can_execute_call_go sA eA T recurse rest
                  | r2 => r2) = .ok r := h
            cases h4 : t.is_external_objc_call with
            | true =>
              rw [if_pos h4] at h6
              cases hs : t.selref with
              | none =>
                rw [hs] at h6
                have h7 : ExecResult.err ("TypeError: int argument cannot be NoneType")
                    = .ok r := h6
                cases h7
              | some sr =>
                rw [hs] at h6
                have h7 : can_execute_call_go sA eA T recurse rest = .ok r := h6
                have hpt : reach_target_step sA eA T childReach t = false := by
                  simp [reach_target_step, h1d, hd, h4]
                rw [hpt, Bool.false_or]
                exact ih r h7
            | false =>
              rw [if_neg (by rw [h4]; exact Bool.false_ne_true), hd] at h6
              have h8 : (match recurse d with
                | ExecResult.ok true => ExecResult.ok true
                | ExecResult.ok false => can_execute_call_go sA eA T recurse rest
                | r2 => r2) = .ok r := h6
              cases hrd : recurse d with
              | ok b2 =>
                rw [hrd] at h8
                cases b2 with
                | true =>
                  have h7 : ExecResult.ok true = .ok r := h8
                  cases h7
                  have hcr : childReach d = true := (hrec d true hrd).symm
                  simp [reach_target_step, hd, hcr, h2, h3, h4]
                | false =>
                  have h7 : can_execute_call_go sA eA T recurse rest = .ok r := h8
                  have hcr : childReach d = false := (hrec d false hrd).symm
                  have hpt : reach_target_step sA eA T childReach t = false := by
                    simp [reach_target_step, h1d, hd, hcr]
                  rw [hpt, Bool.false_or]
                  exact ih r h7
              | err m =>
                rw [hrd] at h8
                have h7 : ExecResult.err m = .ok r := h8
                cases h7
              | fuelOut =>
                rw [hrd] at h8
                have h7 : ExecResult.fuelOut = .ok r := h8
                cases h7

/-- C4 (corrected): reachability search.  (a) a direct branch to the
target, preceded only by skipped records, succeeds with zero recursion
(recursion budget 1); (b) an ordinary internal (followable) call to a
callee that itself reaches the target succeeds with one level of recursion
(budget 2); (c) whenever `can_execute_call` returns a boolean at all, that
boolean is exactly the recursive reachability of the target through
followable call targets -- in particular false when no call target reaches
it; (d) contrary to the spec, the search does not always return a boolean:
a call-target record without a destination address -- produced for every
dynamic-dispatch call whose selector implementation was not resolved --
raises an uncaught TypeError from `is_local_branch` instead of being
skipped, whatever the recursion budget. -/
theorem c4_reachability :
    (∀ (env : AnalyzerEnv) (instrs : List Instr) (T : Nat)
       (pre : List ObjcBranchInstr) (t : ObjcBranchInstr) (post : List ObjcBranchInstr),
      call_targets env instrs = pre ++ t :: post →
      (∀ s ∈ pre, (s.destination_address == some T) = false ∧
        skipped_target ((instrs.head?.map Instr.address).getD 0)
          ((instrs.getLast?.map Instr.address).getD 0) s = true) →
      t.destination_address = some T →
      can_execute_call 1 env instrs T = .ok true) ∧
    (∀ (env : AnalyzerEnv) (instrs : List Instr) (T : Nat)
       (pre : List ObjcBranchInstr) (t : ObjcBranchInstr) (post : List ObjcBranchInstr)
       (dB : Nat),
      call_targets env instrs = pre ++ t :: post →
      (∀ s ∈ pre, (s.destination_address == some T) = false ∧
        skipped_target ((instrs.head?.map Instr.address).getD 0)
          ((instrs.getLast?.map Instr.address).getD 0) s = true) →
      (t.destination_address == some T) = false →
      followable_target ((instrs.head?.map Instr.address).getD 0)
        ((instrs.getLast?.map Instr.address).getD 0) t = true →
      t.destination_address = some dB →
      ¬(env.functions dB = []) →
      can_execute_call 1 env (env.functions dB) T = .ok true →
      can_execute_call 2 env instrs T = .ok true) ∧
    (∀ (fuel : Nat) (env : AnalyzerEnv) (instrs : List Instr) (T : Nat) (r : Bool),
      can_execute_call fuel env instrs T = .ok r →
      r = reaches_within fuel env instrs T) ∧
    (∀ (env : AnalyzerEnv) (instrs : List Instr) (T fuel : Nat)
       (pre : List ObjcBranchInstr) (t : ObjcBranchInstr) (post : List ObjcBranchInstr),
      call_targets env instrs = pre ++ t :: post →
      (∀ s ∈ pre, (s.destination_address == some T) = false ∧
        skipped_target ((instrs.head?.map Instr.address).getD 0)
          ((instrs.getLast?.map Instr.address).getD 0) s = true) →
      (t.is_external_c_call && !t.is_msgSend_call) = false →
      t.destination_address = none →
      can_execute_call (fuel + 1) env instrs T
        = .err ("TypeError: comparison of int and NoneType")) := by
  refine ⟨?_, ?_, ?_, ?_⟩
  · intro env instrs T pre t post hct hpre hdirect
    show can_execute_call (0 + 1) env instrs T = .ok true
    rw [can_execute_call, hct,
        can_execute_call_go_append_skip _ _ _ _ pre _ hpre,
        can_execute_call_go_cons, if_pos (by simp [hdirect])]
  · intro env instrs T pre t post dB hct hpre hnd hfol hdB hne hcan
    have hemp : (env.functions dB).isEmpty = false := by
      cases hfd : env.functions dB with
      | nil => exact absurd hfd hne
      | cons a l => rfl
    show can_execute_call (1 + 1) env instrs T = .ok true
    rw [can_execute_call, hct,
        can_execute_call_go_append_skip _ _ _ _ pre _ hpre]
    exact can_execute_call_go_cons_recurse_true _ _ _ _ t post dB hnd hfol hdB
      (by rw [if_neg (by rw [hemp]; exact Bool.false_ne_true)]; exact hcan)
  · intro fuel
    induction fuel with
    | zero =>
      intro env instrs T r h
      cases h
    | succ fuel1 ih =>
      intro env instrs T r h
      rw [can_execute_call] at h
      have hagree := can_execute_call_go_agree
        ((instrs.head?.map Instr.address).getD 0)
        ((instrs.getLast?.map Instr.address).getD 0)
        T _
        (fun d => !(env.functions d).isEmpty &&
          reaches_within fuel1 env (env.functions d) T)
        (fun d b2 hb2 => by
          by_cases he : (env.functions d).isEmpty = true
          · rw [if_pos he] at hb2
            cases hb2
          · rw [if_neg he] at hb2
            have hb3 := ih env (env.functions d) T b2 hb2
            rw [hb3]
            simp [Bool.not_eq_true] at he
            simp [he])
        (call_targets env instrs) r h
      rw [hagree]
      rfl
  · intro env instrs T fuel pre t post hct hpre hec hdn
    rw [can_execute_call, hct,
        can_execute_call_go_append_skip _ _ _ _ pre _ hpre,
        can_execute_call_go_cons,
        if_neg (by rw [hdn]; exact Bool.false_ne_true),
        if_neg (by rw [hec]; exact Bool.false_ne_true)]
    have hil : is_local_branch ((instrs.head?.map Instr.address).getD 0)
        ((instrs.getLast?.map Instr.address).getD 0) t
        = .error ("TypeError: comparison of int and NoneType") := by
      unfold is_local_branch
      rw [hdn]
    rw [hil]

/-- The call graph for the C4 witness: function 0x200 contains `bl 0x300`;
0x300 is an external native symbol with no local instructions. -/
def c4_witness_env : AnalyzerEnv := {
  functions := fun d => if d == 0x200 then [⟨0x200, ("bl"), [.imm 0x300]⟩] else [],
  imp_for_selref := fun _ => none,
  is_msgSend_stub := fun _ => false,
  is_external_c_symbol := fun d => d == 0x300,
  symbol_for_address := fun _ => none }

/-- The environment for the C4 counterexample and the crash part of the
witness: 0x500 is the dispatch trampoline stub; no other symbol
knowledge, so the selector argument of the dynamic-dispatch call cannot
be resolved and its record keeps no destination. -/
def c4_cex_env : AnalyzerEnv := {
  functions := fun _ => [],
  imp_for_selref := fun _ => none,
  is_msgSend_stub := fun d => d == 0x500,
  is_external_c_symbol := fun _ => false,
  symbol_for_address := fun _ => none }

/-- C4 counterexample: a function whose first branch is a dynamic-dispatch
call with a statically unresolvable selector and whose second branch goes
directly to the searched address 0x300.  The claim promises a boolean
(here: true, as the second call-target record is a direct hit), but the
loop reaches the destination-less record first and crashes with the
TypeError of the `None`-destination comparison in `is_local_branch`. -/
theorem c4_counterexample :
    can_execute_call 1 c4_cex_env
        [⟨0x100, ("bl"), [.imm 0x500]⟩, ⟨0x104, ("bl"), [.imm 0x300]⟩] 0x300
      = .err ("TypeError: comparison of int and NoneType") ∧
    (call_targets c4_cex_env
        [⟨0x100, ("bl"), [.imm 0x500]⟩, ⟨0x104, ("bl"), [.imm 0x300]⟩]).any
      (fun t2 => t2.destination_address == some 0x300) = true := by
  exact ⟨by decide, by decide⟩

/-- C4 witness: a direct branch to 0x300 is found with recursion budget 1; a
call chain through 0x200 is found with budget 2; a target no call path
reaches evaluates to unreachable; and the crash part at a concrete
unresolved dynamic-dispatch record. -/
theorem c4_reachability_witness :
    can_execute_call 1 c4_witness_env [⟨0x100, ("bl"), [.imm 0x300]⟩] 0x300 = .ok true ∧
    can_execute_call 2 c4_witness_env [⟨0x100, ("bl"), [.imm 0x200]⟩] 0x300 = .ok true ∧
    reaches_within 2 c4_witness_env [⟨0x100, ("bl"), [.imm 0x200]⟩] 0x999 = false ∧
    can_execute_call 1 c4_cex_env
        [⟨0x100, ("bl"), [.imm 0x500]⟩, ⟨0x104, ("bl"), [.imm 0x300]⟩] 0x999
      = .err ("TypeError: comparison of int and NoneType") :=
  ⟨c4_reachability.1 c4_witness_env [⟨0x100, ("bl"), [.imm 0x300]⟩] 0x300 []
      ⟨⟨0x100, ("bl"), [.imm 0x300]⟩, some 0x300, none, false, true, false, none⟩ []
      (by decide) (by decide) (by decide),
   c4_reachability.2.1 c4_witness_env [⟨0x100, ("bl"), [.imm 0x200]⟩] 0x300 []
      ⟨⟨0x100, ("bl"), [.imm 0x200]⟩, some 0x200, none, false, false, false, none⟩ []
      0x200
      (by decide) (by decide) (by decide) (by decide) (by decide) (by decide) (by decide),
   (c4_reachability.2.2.1 2 c4_witness_env [⟨0x100, ("bl"), [.imm 0x200]⟩] 0x999 false
      (by decide)).symm,
   c4_reachability.2.2.2 c4_cex_env
      [⟨0x100, ("bl"), [.imm 0x500]⟩, ⟨0x104, ("bl"), [.imm 0x300]⟩] 0x999 0 []
      ⟨⟨0x100, ("bl"), [.imm 0x500]⟩, none, none, true, false, true, none⟩
      [⟨⟨0x104, ("bl"), [.imm 0x300]⟩, some 0x300, none, false, false, false, none⟩]
      (by decide) (by decide) (by decide) (by decide)⟩

/- ## C7 / C8: selref parsing and missing-string handling -/

theorem dictContains_dictSet {κ α : Type} [BEq κ] [LawfulBEq κ]
    (m : List (κ × α)) (k k2 : κ) (v : α)
    (h : dictContains m k = true) : dictContains (dictSet m k2 v) k = true := by
  by_cases hk : k = k2
  · subst hk
    unfold dictContains
    rw [dictGet_dictSet_self]
    rfl
  · unfold dictContains at h ⊢
    rw [dictGet_dictSet_ne m k2 k v hk]
    exact h

theorem dictContains_dictSet_self {κ α : Type} [BEq κ] [LawfulBEq κ]
    (m : List (κ × α)) (k : κ) (v : α) :
    dictContains (dictSet m k v) k = true := by
  unfold dictContains
  rw [dictGet_dictSet_self]
  rfl

/-- What Phase 1 guarantees about every entry of `selref_to_selector`:
a provisional (implementation-free) selector whose name is the non-empty
literal string read at the wrapped selref's destination address. -/
def good_phase1_selector (bin : MachoBinary) (sp : Nat) (e : ObjcSelector) : Prop :=
  e.implementation = none ∧ ¬(e.name = ("")) ∧
  ∃ sr, e.selref = some sr ∧ sr.source_address = sp ∧ sr.selector_literal = e.name ∧
    bin.get_full_string_from_start_address sr.destination_address = some e.name

theorem parse_selrefs_loop_contains (bin : MachoBinary) :
    ∀ (pairs : List (Nat × Nat)) (lit : SelectorLiteralToSelrefMap)
      (sel : SelrefPtrToSelectorMap),
      (∀ k, dictContains lit k = true →
        dictContains (parse_selrefs_loop bin pairs lit sel).1 k = true) ∧
      (∀ k, dictContains sel k = true →
        dictContains (parse_selrefs_loop bin pairs lit sel).2 k = true) ∧
      (∀ (i sp lp : Nat) (s : String), pairs[i]? = some (sp, lp) →
        bin.get_full_string_from_start_address lp = some s → ¬(s = ("")) →
        dictContains (parse_selrefs_loop bin pairs lit sel).1 lp = true ∧
        dictContains (parse_selrefs_loop bin pairs lit sel).2 sp = true) := by
  intro pairs
  induction pairs with
  | nil =>
    intro lit sel
    refine ⟨fun k h => h, fun k h => h, ?_⟩
    intro i sp lp s hp
    simp at hp
  | cons pair rest ih =>
    intro lit sel
    obtain ⟨sp0, lp0⟩ := pair
    cases hts : truthy_string (bin.get_full_string_from_start_address lp0) with
    | none =>
      have hred : parse_selrefs_loop bin ((sp0, lp0) :: rest) lit sel
          = parse_selrefs_loop bin rest lit sel := by
        rw [parse_selrefs_loop, hts]
      rw [hred]
      refine ⟨(ih lit sel).1, (ih lit sel).2.1, ?_⟩
      intro i sp lp s hp hstr hne
      cases i with
      | zero =>
        simp at hp
        obtain ⟨hsp, hlp⟩ := hp
        subst hsp
        subst hlp
        rw [hstr, truthy_string_of_ne hne] at hts
        cases hts
      | succ i2 =>
        exact (ih lit sel).2.2 i2 sp lp s (by simpa using hp) hstr hne
    | some s0 =>
      have hred : parse_selrefs_loop bin ((sp0, lp0) :: rest) lit sel
          = parse_selrefs_loop bin rest
              (dictSet lit lp0 ⟨sp0, lp0, s0⟩)
              (dictSet sel sp0 ⟨s0, some ⟨sp0, lp0, s0⟩, none⟩) := by
        rw [parse_selrefs_loop, hts]
      rw [hred]
      have ih2 := ih (dictSet lit lp0 ⟨sp0, lp0, s0⟩)
        (dictSet sel sp0 ⟨s0, some ⟨sp0, lp0, s0⟩, none⟩)
      refine ⟨?_, ?_, ?_⟩
      · intro k hk
        exact ih2.1 k (dictContains_dictSet lit k lp0 _ hk)
      · intro k hk
        exact ih2.2.1 k (dictContains_dictSet sel k sp0 _ hk)
      · intro i sp lp s hp hstr hne
        cases i with
        | zero =>
          simp at hp
          obtain ⟨hsp, hlp⟩ := hp
          constructor
          · exact hlp ▸ ih2.1 lp0 (dictContains_dictSet_self lit lp0 _)
          · exact hsp ▸ ih2.2.1 sp0 (dictContains_dictSet_self sel sp0 _)
        | succ i2 =>
          exact ih2.2.2 i2 sp lp s (by simpa using hp) hstr hne

theorem parse_selrefs_loop_good (bin : MachoBinary) :
    ∀ (pairs : List (Nat × Nat)) (lit : SelectorLiteralToSelrefMap)
      (sel : SelrefPtrToSelectorMap),
      (∀ sp e, dictGet sel sp = some e → good_phase1_selector bin sp e) →
      ∀ sp e, dictGet (parse_selrefs_loop bin pairs lit sel).2 sp = some e →
        good_phase1_selector bin sp e := by
  intro pairs
  induction pairs with
  | nil => intro lit sel hinv sp e h; exact hinv sp e h
  | cons pair rest ih =>
    intro lit sel hinv sp e h
    obtain ⟨sp0, lp0⟩ := pair
    cases hts : truthy_string (bin.get_full_string_from_start_address lp0) with
    | none =>
      rw [show parse_selrefs_loop bin ((sp0, lp0) :: rest) lit sel
            = parse_selrefs_loop bin rest lit sel from by rw [parse_selrefs_loop, hts]] at h
      exact ih lit sel hinv sp e h
    | some s0 =>
      rw [show parse_selrefs_loop bin ((sp0, lp0) :: rest) lit sel
            = parse_selrefs_loop bin rest
                (dictSet lit lp0 ⟨sp0, lp0, s0⟩)
                (dictSet sel sp0 ⟨s0, some ⟨sp0, lp0, s0⟩, none⟩)
          from by rw [parse_selrefs_loop, hts]] at h
      refine ih _ _ ?_ sp e h
      intro sp2 e2 h2
      by_cases hk : sp2 = sp0
      · subst hk
        rw [dictGet_dictSet_self] at h2
        obtain ⟨hs1, hs2⟩ := truthy_string_some hts
        injection h2 with h2
        subst h2
        exact ⟨rfl, hs2, ⟨sp2, lp0, s0⟩, rfl, rfl, rfl, hs1⟩
      · rw [dictGet_dictSet_ne sel sp0 sp2 _ hk] at h2
        exact hinv sp2 e2 h2

/-- C7 counterexample: a selref pair whose selector literal reads back as
the empty string -- the string *can* be read -- is nevertheless skipped
(Python truthiness), so neither map gains an entry. -/
def c7_cex_bin : MachoBinary := {
  selrefs_section := ([0x5000], [0x3000]),
  classlist_pointers := [],
  catlist_pointers := [],
  protolist_pointers := [],
  get_full_string_from_start_address := fun addr => if addr == 0x3000 then some ("") else none,
  class_struct_at := fun _ => ⟨0, 0⟩,
  data_struct_at := fun _ => ⟨0, 0, 0, 0⟩,
  category_struct_at := fun _ => ⟨0, 0, 0, 0⟩,
  protocol_struct_at := fun _ => ⟨0, 0, 0, 0, 0⟩,
  protocol_list_struct_at := fun _ => ⟨0, 0, 0⟩,
  method_list_struct_at := fun _ => ⟨0, 0⟩,
  method_struct_at := fun _ => ⟨0, 0, 0⟩,
  ivar_list_struct_at := fun _ => ⟨0, 0⟩,
  ivar_struct_at := fun _ => ⟨0, 0, 0, 0⟩,
  read_word := fun _ => 0,
  read_word32 := fun _ => 0,
  platform_word_size := 8,
  virtual_base := 0x1000 }

/-- C7 counterexample: the literal at 0x3000 is readable (`some ""`), yet
Phase 1 produces no `selector_literal_to_selref` and no
`selref_to_selector` entry for the pair. -/
theorem c7_counterexample :
    c7_cex_bin.get_full_string_from_start_address 0x3000 = some ("") ∧
    parse_selrefs c7_cex_bin = .ok ([], []) := by decide

/-- C7 (amended): Phase 1 raises a fatal error exactly on a parallel-array
length mismatch; otherwise it succeeds, skipping (without error) every pair
whose literal string cannot be read or reads back empty, and for every pair
whose literal reads back non-empty it adds a `selector_literal_to_selref`
entry keyed by the literal address and a `selref_to_selector` entry; every
surviving selector-map entry is provisional (`implementation = None`) with
its name equal to the (non-empty) literal string read at its selref's
destination address. -/
theorem c7_parse_selrefs :
    (∀ bin : MachoBinary,
      ¬(bin.selrefs_section.1.length = bin.selrefs_section.2.length) →
      parse_selrefs bin = .error ("read invalid data from __objc_selrefs")) ∧
    (∀ bin : MachoBinary,
      bin.selrefs_section.1.length = bin.selrefs_section.2.length →
      ∃ maps, parse_selrefs bin = .ok maps) ∧
    (∀ (bin : MachoBinary) (sp lp : Nat) (rest : List (Nat × Nat))
       (lit : SelectorLiteralToSelrefMap) (sel : SelrefPtrToSelectorMap),
      truthy_string (bin.get_full_string_from_start_address lp) = none →
      parse_selrefs_loop bin ((sp, lp) :: rest) lit sel
        = parse_selrefs_loop bin rest lit sel) ∧
    (∀ (bin : MachoBinary) (maps : SelectorLiteralToSelrefMap × SelrefPtrToSelectorMap)
       (i sp lp : Nat) (s : String),
      parse_selrefs bin = .ok maps →
      (bin.selrefs_section.1.zip bin.selrefs_section.2)[i]? = some (sp, lp) →
      bin.get_full_string_from_start_address lp = some s → ¬(s = ("")) →
      dictContains maps.1 lp = true ∧ dictContains maps.2 sp = true) ∧
    (∀ (bin : MachoBinary) (maps : SelectorLiteralToSelrefMap × SelrefPtrToSelectorMap)
       (sp : Nat) (e : ObjcSelector),
      parse_selrefs bin = .ok maps →
      dictGet maps.2 sp = some e →
      good_phase1_selector bin sp e) := by
  have hok : ∀ bin : MachoBinary,
      bin.selrefs_section.1.length = bin.selrefs_section.2.length →
      parse_selrefs bin
        = .ok (parse_selrefs_loop bin
            (bin.selrefs_section.1.zip bin.selrefs_section.2) [] []) := by
    intro bin h
    unfold parse_selrefs
    rw [if_neg (by simp [h])]
  have hinvert : ∀ (bin : MachoBinary) maps, parse_selrefs bin = .ok maps →
      maps = parse_selrefs_loop bin (bin.selrefs_section.1.zip bin.selrefs_section.2) [] [] := by
    intro bin maps h
    unfold parse_selrefs at h
    by_cases hlen : (!(bin.selrefs_section.1.length == bin.selrefs_section.2.length)) = true
    · rw [if_pos hlen] at h
      cases h
    · rw [if_neg hlen] at h
      injection h with h
      exact h.symm
  refine ⟨?_, ?_, ?_, ?_, ?_⟩
  · intro bin h
    unfold parse_selrefs
    rw [if_pos (by simp [h])]
  · intro bin h
    exact ⟨_, hok bin h⟩
  · intro bin sp lp rest lit sel h
    rw [parse_selrefs_loop, h]
  · intro bin maps i sp lp s h hp hstr hne
    rw [hinvert bin maps h]
    exact (parse_selrefs_loop_contains bin
      (bin.selrefs_section.1.zip bin.selrefs_section.2) [] []).2.2 i sp lp s hp hstr hne
  · intro bin maps sp e h hget
    rw [hinvert bin maps h] at hget
    refine parse_selrefs_loop_good bin
      (bin.selrefs_section.1.zip bin.selrefs_section.2) [] [] ?_ sp e hget
    intro sp2 e2 h2
    cases h2

/-- C7 witness: at a concrete one-pair binary with literal "foo", both maps
gain the entry, and every selector-map entry is a good provisional entry. -/
def c7_witness_bin : MachoBinary :=
  { c7_cex_bin with
    get_full_string_from_start_address := fun addr =>
      if addr == 0x3000 then some ("foo") else none }

theorem c7_parse_selrefs_witness :
    (dictContains
      (parse_selrefs_loop c7_witness_bin [(0x5000, 0x3000)] [] []).1 0x3000 = true ∧
     dictContains
      (parse_selrefs_loop c7_witness_bin [(0x5000, 0x3000)] [] []).2 0x5000 = true) ∧
    good_phase1_selector c7_witness_bin 0x5000
      ⟨("foo"), some ⟨0x5000, 0x3000, ("foo")⟩, none⟩ :=
  ⟨c7_parse_selrefs.2.2.2.1 c7_witness_bin
      (parse_selrefs_loop c7_witness_bin [(0x5000, 0x3000)] [] []) 0 0x5000 0x3000 ("foo")
      (by decide) (by decide) (by decide) (by decide),
   c7_parse_selrefs.2.2.2.2 c7_witness_bin
      (parse_selrefs_loop c7_witness_bin [(0x5000, 0x3000)] [] []) 0x5000
      ⟨("foo"), some ⟨0x5000, 0x3000, ("foo")⟩, none⟩
      (by decide) (by decide)⟩

/- ## C8: per-call-site missing-string behaviour -/

/-- The address of the j-th fixed-stride method entry, starting from the
first entry offset (each entry advances by its own struct sizeof). -/
def meth_entry_offset (bin : MachoBinary) : Nat → Nat → Nat
  | off, 0 => off
  | off, j + 1 => meth_entry_offset bin (off + (bin.method_struct_at off).sizeof) j

theorem read_selectors_loop_ok_names (bin : MachoBinary) (lit : SelectorLiteralToSelrefMap) :
    ∀ (n off : Nat) (sel : SelrefPtrToSelectorMap)
      (res : List ObjcSelector × SelrefPtrToSelectorMap),
      read_selectors_loop bin lit n off sel = .ok res →
      ∀ j, j < n →
        ∃ s, truthy_string (bin.get_full_string_from_start_address
          (bin.method_struct_at (meth_entry_offset bin off j)).name) = some s := by
  intro n
  induction n with
  | zero =>
    intro off sel res h j hj
    exact absurd hj (by omega)
  | succ n2 ih =>
    intro off sel res h j hj
    rw [read_selectors_loop] at h
    split at h
    · cases h
    · rename_i s0 hts
      cases j with
      | zero => exact ⟨s0, hts⟩
      | succ j2 =>
        cases hsr : dictGet lit (bin.method_struct_at off).name with
        | some sr =>
          have h2 : (match read_selectors_loop bin lit n2
              (off + (bin.method_struct_at off).sizeof)
              (store_selector_for_selref sel sr.source_address
                ⟨s0, some sr, some ((bin.method_struct_at off).implementation / 4 * 4)⟩) with
            | Except.error e => Except.error e
            | Except.ok (selectors, sel2) =>
              Except.ok
                ((⟨s0, some sr,
                   some ((bin.method_struct_at off).implementation / 4 * 4)⟩ : ObjcSelector)
                  :: selectors, sel2)) = Except.ok res := by
            rw [hsr] at h
            exact h
          split at h2
          · cases h2
          · rename_i selectors sel2 heq
            exact ih _ _ _ heq j2 (by omega)
        | none =>
          have h2 : (match read_selectors_loop bin lit n2
              (off + (bin.method_struct_at off).sizeof) sel with
            | Except.error e => Except.error e
            | Except.ok (selectors, sel2) =>
              Except.ok
                ((⟨s0, none,
                   some ((bin.method_struct_at off).implementation / 4 * 4)⟩ : ObjcSelector)
                  :: selectors, sel2)) = Except.ok res := by
            rw [hsr] at h
            exact h
          split at h2
          · cases h2
          · rename_i selectors sel2 heq
            exact ih _ _ _ heq j2 (by omega)

/-- C8: missing-string handling differs by call site.  During selref
parsing an unreadable selector literal skips the entry and parsing
continues; during method-list parsing every entry's name must read back
truthy for the parse to succeed, and an unreadable first entry aborts with
the fatal symbol-name error. -/
theorem c8_missing_string_asymmetry :
    (∀ (bin : MachoBinary) (sp lp : Nat) (rest : List (Nat × Nat))
       (lit : SelectorLiteralToSelrefMap) (sel : SelrefPtrToSelectorMap),
      bin.get_full_string_from_start_address lp = none →
      parse_selrefs_loop bin ((sp, lp) :: rest) lit sel
        = parse_selrefs_loop bin rest lit sel) ∧
    (∀ (bin : MachoBinary) (lit : SelectorLiteralToSelrefMap) (methlist_ptr : Nat)
       (sel : SelrefPtrToSelectorMap)
       (res : List ObjcSelector × SelrefPtrToSelectorMap),
      read_selectors_from_methlist_ptr bin lit methlist_ptr sel = .ok res →
      ∀ j, j < (bin.method_list_struct_at methlist_ptr).methcount →
        ∃ s, truthy_string (bin.get_full_string_from_start_address
          (bin.method_struct_at
            (meth_entry_offset bin
              (methlist_ptr + (bin.method_list_struct_at methlist_ptr).sizeof) j)).name)
          = some s) ∧
    (∀ (bin : MachoBinary) (lit : SelectorLiteralToSelrefMap) (methlist_ptr : Nat)
       (sel : SelrefPtrToSelectorMap),
      0 < (bin.method_list_struct_at methlist_ptr).methcount →
      truthy_string (bin.get_full_string_from_start_address
        (bin.method_struct_at
          (methlist_ptr + (bin.method_list_struct_at methlist_ptr).sizeof)).name) = none →
      read_selectors_from_methlist_ptr bin lit methlist_ptr sel
        = .error (("Could not get symbol name for ")
            ++ toString (bin.method_struct_at
                (methlist_ptr + (bin.method_list_struct_at methlist_ptr).sizeof)).name)) := by
  refine ⟨?_, ?_, ?_⟩
  · intro bin sp lp rest lit sel h
    rw [parse_selrefs_loop, h]
    rfl
  · intro bin lit methlist_ptr sel res h j hj
    exact read_selectors_loop_ok_names bin lit
      (bin.method_list_struct_at methlist_ptr).methcount
      (methlist_ptr + (bin.method_list_struct_at methlist_ptr).sizeof) sel res h j hj
  · intro bin lit methlist_ptr sel hcount hnone
    obtain ⟨k, hk⟩ : ∃ k, (bin.method_list_struct_at methlist_ptr).methcount = k + 1 :=
      ⟨(bin.method_list_struct_at methlist_ptr).methcount - 1, by omega⟩
    show read_selectors_loop bin lit (bin.method_list_struct_at methlist_ptr).methcount
        (methlist_ptr + (bin.method_list_struct_at methlist_ptr).sizeof) sel
      = .error (("Could not get symbol name for ")
          ++ toString (bin.method_struct_at
              (methlist_ptr + (bin.method_list_struct_at methlist_ptr).sizeof)).name)
    rw [hk, read_selectors_loop, hnone]

/-- The C8 witness binary: one selref pair with an unreadable literal, and a
one-entry method list at 0x7000 whose name string is unreadable. -/
def c8_witness_bin : MachoBinary :=
  { c7_cex_bin with
    get_full_string_from_start_address := fun _ => none,
    method_list_struct_at := fun p => if p == 0x7000 then ⟨1, 8⟩ else ⟨0, 0⟩,
    method_struct_at := fun p => if p == 0x7008 then ⟨0x3000, 0x1400, 24⟩ else ⟨0, 0, 0⟩ }

/-- C8 witness: the selref phase skips the unreadable pair, while the
method-list phase aborts with the fatal symbol-name error. -/
theorem c8_missing_string_asymmetry_witness :
    parse_selrefs_loop c8_witness_bin [(0x5000, 0x3000)] [] []
      = parse_selrefs_loop c8_witness_bin [] [] [] ∧
    read_selectors_from_methlist_ptr c8_witness_bin [] 0x7000 []
      = .error (("Could not get symbol name for ") ++ toString (0x3000 : Nat)) :=
  ⟨c8_missing_string_asymmetry.1 c8_witness_bin 0x5000 0x3000 [] [] [] (by decide),
   c8_missing_string_asymmetry.2.2 c8_witness_bin [] 0x7000 [] (by decide) (by decide)⟩

/- ## C3: class / metaclass merge-or-substitute cases -/

theorem parse_classlist_entry_base_none (bin : MachoBinary)
    (lit : SelectorLiteralToSelrefMap) (ptr : Nat) (sel : SelrefPtrToSelectorMap)
    (hb : get_objc_data_from_objc_class bin
      (get_objc_class_from_classlist_pointer bin ptr) = none) :
    parse_classlist_entry bin lit ptr sel
      = parse_classlist_entry_step2 bin lit
          (get_objc_class_from_classlist_pointer bin ptr) ptr none sel := by
  unfold parse_classlist_entry
  rw [hb]

theorem parse_classlist_entry_base_some (bin : MachoBinary)
    (lit : SelectorLiteralToSelrefMap) (ptr : Nat) (sel : SelrefPtrToSelectorMap)
    (d : ObjcDataRawStruct) (c : ObjcClass) (m1 : SelrefPtrToSelectorMap)
    (hb : get_objc_data_from_objc_class bin
      (get_objc_class_from_classlist_pointer bin ptr) = some d)
    (hp : parse_objc_data_entry bin lit (get_objc_class_from_classlist_pointer bin ptr)
      d sel = .ok (c, m1)) :
    parse_classlist_entry bin lit ptr sel
      = parse_classlist_entry_step2 bin lit
          (get_objc_class_from_classlist_pointer bin ptr) ptr (some c) m1 := by
  unfold parse_classlist_entry
  rw [hb]
  show (match parse_objc_data_entry bin lit
      (get_objc_class_from_classlist_pointer bin ptr) d sel with
    | Except.error e => Except.error e
    | Except.ok (parsed_class, m1) =>
      parse_classlist_entry_step2 bin lit (get_objc_class_from_classlist_pointer bin ptr)
        ptr (some parsed_class) m1)
    = parse_classlist_entry_step2 bin lit (get_objc_class_from_classlist_pointer bin ptr)
        ptr (some c) m1
  rw [hp]

theorem parse_classlist_entry_step2_meta_none (bin : MachoBinary)
    (lit : SelectorLiteralToSelrefMap) (objc_class : ObjcClassRawStruct) (ptr : Nat)
    (parsed_class? : Option ObjcClass) (m1 : SelrefPtrToSelectorMap)
    (hm : get_objc_data_from_objc_class bin
      (get_objc_class_from_classlist_pointer bin objc_class.metaclass) = none) :
    parse_classlist_entry_step2 bin lit objc_class ptr parsed_class? m1
      = (match parsed_class? with
         | none => .error (("Failed to parse classref ") ++ hex_str ptr)
         | some parsed_class => .ok (parsed_class, m1)) := by
  unfold parse_classlist_entry_step2
  rw [hm]

theorem parse_classlist_entry_step2_meta_some (bin : MachoBinary)
    (lit : SelectorLiteralToSelrefMap) (objc_class : ObjcClassRawStruct) (ptr : Nat)
    (parsed_class? : Option ObjcClass) (m1 : SelrefPtrToSelectorMap)
    (d2 : ObjcDataRawStruct) (c2 : ObjcClass) (m2 : SelrefPtrToSelectorMap)
    (hm : get_objc_data_from_objc_class bin
      (get_objc_class_from_classlist_pointer bin objc_class.metaclass) = some d2)
    (hp : parse_objc_data_entry bin lit objc_class d2 m1 = .ok (c2, m2)) :
    parse_classlist_entry_step2 bin lit objc_class ptr parsed_class? m1
      = (match parsed_class? with
         | some parsed_class =>
           .ok ({ parsed_class with
                  selectors := parsed_class.selectors ++ c2.selectors }, m2)
         | none => .ok (c2, m2)) := by
  unfold parse_classlist_entry_step2
  rw [hm]
  show (match parse_objc_data_entry bin lit objc_class d2 m1 with
    | Except.error e => Except.error e
    | Except.ok (parsed_metaclass, m2) =>
      match parsed_class? with
      | some parsed_class =>
        Except.ok ({ parsed_class with
          selectors := parsed_class.selectors ++ parsed_metaclass.selectors }, m2)
      | none => Except.ok (parsed_metaclass, m2))
    = (match parsed_class? with
       | some parsed_class =>
         Except.ok ({ parsed_class with
           selectors := parsed_class.selectors ++ c2.selectors }, m2)
       | none => Except.ok (c2, m2))
  rw [hp]

/-- C3: resolving one class-list pointer.  When only the base class-data
resolves, the produced ObjcClass is the base-data parse (instance
selectors, ivars, protocols); when both resolve, the metaclass selectors
are appended after the base's in one merged class; when only the metaclass
data resolves, the metaclass-derived entity becomes the class; when neither
resolves, the fatal classref parse error is raised. -/
theorem c3_class_entry_cases :
    ∀ (bin : MachoBinary) (lit : SelectorLiteralToSelrefMap) (ptr : Nat)
      (sel : SelrefPtrToSelectorMap),
    (get_objc_data_from_objc_class bin
        (get_objc_class_from_classlist_pointer bin ptr) = none →
     get_objc_data_from_objc_class bin
        (get_objc_class_from_classlist_pointer bin
          (get_objc_class_from_classlist_pointer bin ptr).metaclass) = none →
     parse_classlist_entry bin lit ptr sel
       = .error (("Failed to parse classref ") ++ hex_str ptr)) ∧
    (∀ (d : ObjcDataRawStruct) (c : ObjcClass) (m1 : SelrefPtrToSelectorMap),
     get_objc_data_from_objc_class bin
        (get_objc_class_from_classlist_pointer bin ptr) = some d →
     get_objc_data_from_objc_class bin
        (get_objc_class_from_classlist_pointer bin
          (get_objc_class_from_classlist_pointer bin ptr).metaclass) = none →
     parse_objc_data_entry bin lit (get_objc_class_from_classlist_pointer bin ptr)
        d sel = .ok (c, m1) →
     parse_classlist_entry bin lit ptr sel = .ok (c, m1)) ∧
    (∀ (d d2 : ObjcDataRawStruct) (c : ObjcClass) (m1 : SelrefPtrToSelectorMap)
       (c2 : ObjcClass) (m2 : SelrefPtrToSelectorMap),
     get_objc_data_from_objc_class bin
        (get_objc_class_from_classlist_pointer bin ptr) = some d →
     get_objc_data_from_objc_class bin
        (get_objc_class_from_classlist_pointer bin
          (get_objc_class_from_classlist_pointer bin ptr).metaclass) = some d2 →
     parse_objc_data_entry bin lit (get_objc_class_from_classlist_pointer bin ptr)
        d sel = .ok (c, m1) →
     parse_objc_data_entry bin lit (get_objc_class_from_classlist_pointer bin ptr)
        d2 m1 = .ok (c2, m2) →
     parse_classlist_entry bin lit ptr sel
       = .ok ({ c with selectors := c.selectors ++ c2.selectors }, m2)) ∧
    (∀ (d2 : ObjcDataRawStruct) (c2 : ObjcClass) (m2 : SelrefPtrToSelectorMap),
     get_objc_data_from_objc_class bin
        (get_objc_class_from_classlist_pointer bin ptr) = none →
     get_objc_data_from_objc_class bin
        (get_objc_class_from_classlist_pointer bin
          (get_objc_class_from_classlist_pointer bin ptr).metaclass) = some d2 →
     parse_objc_data_entry bin lit (get_objc_class_from_classlist_pointer bin ptr)
        d2 sel = .ok (c2, m2) →
     parse_classlist_entry bin lit ptr sel = .ok (c2, m2)) := by
  intro bin lit ptr sel
  refine ⟨?_, ?_, ?_, ?_⟩
  · intro hb hm
    rw [parse_classlist_entry_base_none bin lit ptr sel hb,
        parse_classlist_entry_step2_meta_none bin lit _ ptr none sel hm]
  · intro d c m1 hb hm hp
    rw [parse_classlist_entry_base_some bin lit ptr sel d c m1 hb hp,
        parse_classlist_entry_step2_meta_none bin lit _ ptr (some c) m1 hm]
  · intro d d2 c m1 c2 m2 hb hm hp1 hp2
    rw [parse_classlist_entry_base_some bin lit ptr sel d c m1 hb hp1,
        parse_classlist_entry_step2_meta_some bin lit _ ptr (some c) m1 d2 c2 m2 hm hp2]
  · intro d2 c2 m2 hb hm hp
    rw [parse_classlist_entry_base_none bin lit ptr sel hb,
        parse_classlist_entry_step2_meta_some bin lit _ ptr none sel d2 c2 m2 hm hp]

/-- The C3 witness binary: class struct at 0x100 with base data at 0x6000
(one instance method "foo" at 0x1400, one ivar "_bar") and metaclass at
0x900 with data at 0x6200 (one class method "classMethod" at 0x2800). -/
def c3_witness_bin : MachoBinary := {
  selrefs_section := ([], []),
  classlist_pointers := [0x100],
  catlist_pointers := [],
  protolist_pointers := [],
  get_full_string_from_start_address := fun addr =>
    if addr == 0x2000 then some ("MyClass")
    else if addr == 0x3000 then some ("foo")
    else if addr == 0x3400 then some ("classMethod")
    else if addr == 0x3100 then some ("_bar")
    else if addr == 0x3200 then some ("NSString")
    else none,
  class_struct_at := fun addr =>
    if addr == 0x100 then ⟨0x900, 0x6000⟩
    else if addr == 0x900 then ⟨0, 0x6200⟩
    else ⟨0, 0⟩,
  data_struct_at := fun addr =>
    if addr == 0x6000 then ⟨0x2000, 0x7000, 0, 0x8000⟩
    else if addr == 0x6200 then ⟨0x2000, 0x7200, 0, 0⟩
    else ⟨0, 0, 0, 0⟩,
  category_struct_at := fun _ => ⟨0, 0, 0, 0⟩,
  protocol_struct_at := fun _ => ⟨0, 0, 0, 0, 0⟩,
  protocol_list_struct_at := fun _ => ⟨0, 0, 0⟩,
  method_list_struct_at := fun addr =>
    if addr == 0x7000 then ⟨1, 8⟩
    else if addr == 0x7200 then ⟨1, 8⟩
    else ⟨0, 0⟩,
  method_struct_at := fun addr =>
    if addr == 0x7008 then ⟨0x3000, 0x1400, 24⟩
    else if addr == 0x7208 then ⟨0x3400, 0x2800, 24⟩
    else ⟨0, 0, 0⟩,
  ivar_list_struct_at := fun addr => if addr == 0x8000 then ⟨1, 8⟩ else ⟨0, 0⟩,
  ivar_struct_at := fun addr =>
    if addr == 0x8008 then ⟨0x3100, 0x3200, 0x3300, 32⟩ else ⟨0, 0, 0, 0⟩,
  read_word := fun _ => 0,
  read_word32 := fun addr => if addr == 0x3300 then 8 else 0,
  platform_word_size := 8,
  virtual_base := 0x1000 }

/-- C3 witness: both the base and metaclass data of the concrete class
resolve, and the merged class carries the instance selector, the ivar, and
the appended class-method selector. -/
theorem c3_class_entry_cases_witness :
    parse_classlist_entry c3_witness_bin [] 0x100 []
      = .ok (⟨.cls ⟨0x900, 0x6000⟩, ("MyClass"),
              [⟨("foo"), none, some 0x1400⟩, ⟨("classMethod"), none, some 0x2800⟩],
              [⟨("_bar"), some ("NSString"), 8⟩], [], none⟩, []) :=
  (c3_class_entry_cases c3_witness_bin [] 0x100 []).2.2.1
    ⟨0x2000, 0x7000, 0, 0x8000⟩ ⟨0x2000, 0x7200, 0, 0⟩
    ⟨.cls ⟨0x900, 0x6000⟩, ("MyClass"), [⟨("foo"), none, some 0x1400⟩],
      [⟨("_bar"), some ("NSString"), 8⟩], [], none⟩ []
    ⟨.cls ⟨0x900, 0x6000⟩, ("MyClass"), [⟨("classMethod"), none, some 0x2800⟩],
      [], [], none⟩ []
    (by decide) (by decide) (by decide) (by decide)

/- ## C1: the selref-to-selector map after full parsing -/

/-- The selector map holds a fully resolved (non-None implementation)
selector at key `k`. -/
def ResolvedAt (m : SelrefPtrToSelectorMap) (k : Nat) : Prop :=
  ∃ v, dictGet m k = some v ∧ v.implementation.isSome = true

/-- One parsing step evolves the selector map soundly: resolved entries
stay resolved, and key uniqueness (one entry per selref -- never both a
provisional and a resolved selector simultaneously) is preserved. -/
def SelMapStep (m m2 : SelrefPtrToSelectorMap) : Prop :=
  (∀ k, ResolvedAt m k → ResolvedAt m2 k) ∧
  ((m.map Prod.fst).Nodup → (m2.map Prod.fst).Nodup)

/-- Every selector in `sels` carries a resolved implementation, and every
selref among them is resolved in the map `m`. -/
def SelsOk (m : SelrefPtrToSelectorMap) (sels : List ObjcSelector) : Prop :=
  ∀ s ∈ sels, s.implementation.isSome = true ∧
    ∀ sr, s.selref = some sr → ResolvedAt m sr.source_address

theorem SelMapStep_refl (m : SelrefPtrToSelectorMap) : SelMapStep m m :=
  ⟨fun _ h => h, fun h => h⟩

theorem SelMapStep_trans {a b c : SelrefPtrToSelectorMap}
    (h1 : SelMapStep a b) (h2 : SelMapStep b c) : SelMapStep a c :=
  ⟨fun k h => h2.1 k (h1.1 k h), fun h => h2.2 (h1.2 h)⟩

theorem SelsOk_nil (m : SelrefPtrToSelectorMap) : SelsOk m [] := by
  intro s hs
  cases hs

theorem SelsOk_of_step {m m2 : SelrefPtrToSelectorMap} {sels : List ObjcSelector}
    (h : SelsOk m sels) (hs : SelMapStep m m2) : SelsOk m2 sels := by
  intro s hmem
  exact ⟨(h s hmem).1, fun sr hsr => hs.1 _ ((h s hmem).2 sr hsr)⟩

theorem SelsOk_append {m : SelrefPtrToSelectorMap} {a b : List ObjcSelector}
    (ha : SelsOk m a) (hb : SelsOk m b) : SelsOk m (a ++ b) := by
  intro s hmem
  rcases List.mem_append.mp hmem with h | h
  · exact ha s h
  · exact hb s h

theorem mem_keys_dictSet {κ α : Type} [BEq κ] [LawfulBEq κ]
    (m : List (κ × α)) (k a : κ) (v : α)
    (h : a ∈ (dictSet m k v).map Prod.fst) : a ∈ m.map Prod.fst ∨ a = k := by
  induction m with
  | nil =>
    simp [dictSet] at h
    right
    exact h
  | cons p rest ih =>
    cases hk : (p.1 == k) with
    | true =>
      have hr : dictSet (p :: rest) k v = (k, v) :: rest := by
        simp [dictSet, hk]
      rw [hr, List.map_cons, List.mem_cons] at h
      rcases h with h | h
      · right; exact h
      · left; exact List.mem_cons_of_mem _ h
    | false =>
      have hr : dictSet (p :: rest) k v = p :: dictSet rest k v := by
        simp [dictSet, hk]
      rw [hr, List.map_cons, List.mem_cons] at h
      rcases h with h | h
      · left
        rw [List.map_cons, List.mem_cons]
        left
        exact h
      · rcases ih h with h2 | h2
        · left
          rw [List.map_cons, List.mem_cons]
          right
          exact h2
        · right
          exact h2

theorem mem_keys_dictDel {κ α : Type} [BEq κ] [LawfulBEq κ]
    (m : List (κ × α)) (k a : κ)
    (h : a ∈ (dictDel m k).map Prod.fst) : a ∈ m.map Prod.fst := by
  induction m with
  | nil => simp [dictDel] at h
  | cons p rest ih =>
    cases hk : (p.1 == k) with
    | true =>
      have hr : dictDel (p :: rest) k = rest := by simp [dictDel, hk]
      rw [hr] at h
      exact List.mem_cons_of_mem _ h
    | false =>
      have hr : dictDel (p :: rest) k = p :: dictDel rest k := by simp [dictDel, hk]
      rw [hr, List.map_cons, List.mem_cons] at h
      rw [List.map_cons, List.mem_cons]
      rcases h with h | h
      · left; exact h
      · right; exact ih h

theorem nodup_keys_dictSet {κ α : Type} [BEq κ] [LawfulBEq κ]
    (m : List (κ × α)) (k : κ) (v : α)
    (h : (m.map Prod.fst).Nodup) : ((dictSet m k v).map Prod.fst).Nodup := by
  induction m with
  | nil => simp [dictSet]
  | cons p rest ih =>
    rw [List.map_cons, List.nodup_cons] at h
    cases hk : (p.1 == k) with
    | true =>
      have hpk : p.1 = k := by simpa using hk
      have hr : dictSet (p :: rest) k v = (k, v) :: rest := by
        simp [dictSet, hk]
      rw [hr, List.map_cons, List.nodup_cons]
      rw [hpk] at h
      exact h
    | false =>
      have hr : dictSet (p :: rest) k v = p :: dictSet rest k v := by
        simp [dictSet, hk]
      rw [hr, List.map_cons, List.nodup_cons]
      constructor
      · intro hmem
        rcases mem_keys_dictSet rest k p.1 v hmem with h2 | h2
        · exact h.1 h2
        · exact absurd h2 (by simpa using hk)
      · exact ih h.2

theorem nodup_keys_dictDel {κ α : Type} [BEq κ] [LawfulBEq κ]
    (m : List (κ × α)) (k : κ)
    (h : (m.map Prod.fst).Nodup) : ((dictDel m k).map Prod.fst).Nodup := by
  induction m with
  | nil => simp [dictDel]
  | cons p rest ih =>
    rw [List.map_cons, List.nodup_cons] at h
    cases hk : (p.1 == k) with
    | true =>
      have hr : dictDel (p :: rest) k = rest := by simp [dictDel, hk]
      rw [hr]
      exact h.2
    | false =>
      have hr : dictDel (p :: rest) k = p :: dictDel rest k := by simp [dictDel, hk]
      rw [hr, List.map_cons, List.nodup_cons]
      exact ⟨fun hmem => h.1 (mem_keys_dictDel rest k p.1 hmem), ih h.2⟩

theorem ResolvedAt_store_self (m : SelrefPtrToSelectorMap) (k : Nat) (v : ObjcSelector)
    (hv : v.implementation.isSome = true) :
    ResolvedAt (store_selector_for_selref m k v) k := by
  refine ⟨v, ?_, hv⟩
  unfold store_selector_for_selref
  exact dictGet_dictSet_self _ k v

theorem dictGet_store_ne (m : SelrefPtrToSelectorMap) (k : Nat) (v : ObjcSelector)
    (k2 : Nat) (h : ¬(k2 = k)) :
    dictGet (store_selector_for_selref m k v) k2 = dictGet m k2 := by
  unfold store_selector_for_selref
  rw [dictGet_dictSet_ne _ k k2 v h]
  cases hg : dictGet m k with
  | none => rfl
  | some old =>
    show dictGet (if truthy_int old.implementation then m else dictDel m k) k2 = dictGet m k2
    by_cases ht : truthy_int old.implementation = true
    · rw [if_pos ht]
    · rw [if_neg ht]
      exact dictGet_dictDel_ne m k k2 h

theorem nodup_keys_store (m : SelrefPtrToSelectorMap) (k : Nat) (v : ObjcSelector)
    (h : (m.map Prod.fst).Nodup) :
    ((store_selector_for_selref m k v).map Prod.fst).Nodup := by
  unfold store_selector_for_selref
  apply nodup_keys_dictSet
  cases hg : dictGet m k with
  | none => exact h
  | some old =>
    show ((if truthy_int old.implementation then m else dictDel m k).map Prod.fst).Nodup
    by_cases ht : truthy_int old.implementation = true
    · rw [if_pos ht]; exact h
    · rw [if_neg ht]; exact nodup_keys_dictDel m k h

theorem SelMapStep_store (m : SelrefPtrToSelectorMap) (k : Nat) (v : ObjcSelector)
    (hv : v.implementation.isSome = true) :
    SelMapStep m (store_selector_for_selref m k v) := by
  constructor
  · intro k2 hres
    obtain ⟨w, hw, hwi⟩ := hres
    by_cases hk : k2 = k
    · subst hk
      exact ResolvedAt_store_self m k2 v hv
    · exact ⟨w, by rw [dictGet_store_ne m k v k2 hk]; exact hw, hwi⟩
  · exact nodup_keys_store m k v

theorem read_selectors_loop_spec (bin : MachoBinary) (lit : SelectorLiteralToSelrefMap) :
    ∀ (n off : Nat) (sel : SelrefPtrToSelectorMap)
      (sels : List ObjcSelector) (sel2 : SelrefPtrToSelectorMap),
      read_selectors_loop bin lit n off sel = .ok (sels, sel2) →
      SelMapStep sel sel2 ∧ SelsOk sel2 sels := by
  intro n
  induction n with
  | zero =>
    intro off sel sels sel2 h
    have h2 : (Except.ok ([], sel)
        : Except String (List ObjcSelector × SelrefPtrToSelectorMap))
        = .ok (sels, sel2) := h
    simp only [Except.ok.injEq, Prod.mk.injEq] at h2
    obtain ⟨h3, h4⟩ := h2
    rw [← h3, ← h4]
    exact ⟨SelMapStep_refl sel, SelsOk_nil sel⟩
  | succ n2 ih =>
    intro off sel sels sel2 h
    rw [read_selectors_loop] at h
    split at h
    · cases h
    · rename_i s0 hts
      cases hsr : dictGet lit (bin.method_struct_at off).name with
      | some sr =>
        have h2 : (match read_selectors_loop bin lit n2
            (off + (bin.method_struct_at off).sizeof)
            (store_selector_for_selref sel sr.source_address
              ⟨s0, some sr, some ((bin.method_struct_at off).implementation / 4 * 4)⟩) with
          | Except.error e => Except.error e
          | Except.ok (selectors, sel3) =>
            Except.ok
              ((⟨s0, some sr,
                 some ((bin.method_struct_at off).implementation / 4 * 4)⟩ : ObjcSelector)
                :: selectors, sel3)) = Except.ok (sels, sel2) := by
          rw [hsr] at h
          exact h
        split at h2
        · cases h2
        · rename_i selectors sel3 heq
          simp only [Except.ok.injEq, Prod.mk.injEq] at h2
          obtain ⟨hsels, hsel2⟩ := h2
          have hstep := ih _ _ _ _ heq
          have himpl : ((⟨s0, some sr,
              some ((bin.method_struct_at off).implementation / 4 * 4)⟩
              : ObjcSelector)).implementation.isSome = true := rfl
          have hstore := SelMapStep_store sel sr.source_address _ himpl
          rw [← hsels, ← hsel2]
          refine ⟨SelMapStep_trans hstore hstep.1, ?_⟩
          intro s hs
          rcases List.mem_cons.mp hs with hh | hh
          · subst hh
            refine ⟨rfl, ?_⟩
            intro sr2 hsr2
            have : sr2 = sr := by
              simp only [Option.some.injEq] at hsr2
              exact hsr2.symm ▸ rfl
            rw [this]
            exact hstep.1.1 sr.source_address
              (ResolvedAt_store_self sel sr.source_address _ himpl)
          · exact hstep.2 s hh
      | none =>
        have h2 : (match read_selectors_loop bin lit n2
            (off + (bin.method_struct_at off).sizeof) sel with
          | Except.error e => Except.error e
          | Except.ok (selectors, sel3) =>
            Except.ok
              ((⟨s0, none,
                 some ((bin.method_struct_at off).implementation / 4 * 4)⟩ : ObjcSelector)
                :: selectors, sel3)) = Except.ok (sels, sel2) := by
          rw [hsr] at h
          exact h
        split at h2
        · cases h2
        · rename_i selectors sel3 heq
          simp only [Except.ok.injEq, Prod.mk.injEq] at h2
          obtain ⟨hsels, hsel2⟩ := h2
          have hstep := ih _ _ _ _ heq
          rw [← hsels, ← hsel2]
          refine ⟨hstep.1, ?_⟩
          intro s hs
          rcases List.mem_cons.mp hs with hh | hh
          · subst hh
            refine ⟨rfl, ?_⟩
            intro sr2 hsr2
            cases hsr2
          · exact hstep.2 s hh

theorem read_selectors_from_optional_methlist_spec
    (bin : MachoBinary) (lit : SelectorLiteralToSelrefMap) (methlist_ptr : Nat)
    (sel : SelrefPtrToSelectorMap) (sels : List ObjcSelector)
    (m : SelrefPtrToSelectorMap)
    (h : read_selectors_from_optional_methlist bin lit methlist_ptr sel = .ok (sels, m)) :
    SelMapStep sel m ∧ SelsOk m sels := by
  unfold read_selectors_from_optional_methlist at h
  split at h
  · simp only [Except.ok.injEq, Prod.mk.injEq] at h
    obtain ⟨h1, h2⟩ := h
    rw [← h1, ← h2]
    exact ⟨SelMapStep_refl sel, SelsOk_nil sel⟩
  · exact read_selectors_loop_spec bin lit
      (bin.method_list_struct_at methlist_ptr).methcount
      (methlist_ptr + (bin.method_list_struct_at methlist_ptr).sizeof) sel sels m h

theorem parse_objc_protocol_entry_spec
    (bin : MachoBinary) (lit : SelectorLiteralToSelrefMap)
    (p : ObjcProtocolRawStruct) (sel : SelrefPtrToSelectorMap)
    (proto : ObjcProtocol) (m4 : SelrefPtrToSelectorMap)
    (h : parse_objc_protocol_entry bin lit p sel = .ok (proto, m4)) :
    SelMapStep sel m4 := by
  unfold parse_objc_protocol_entry at h
  split at h
  · cases h
  · split at h
    · cases h
    · rename_i s1 m1 heq1
      split at h
      · cases h
      · rename_i s2 m2 heq2
        split at h
        · cases h
        · rename_i s3 m3 heq3
          split at h
          · cases h
          · rename_i s4 m4x heq4
            simp only [Except.ok.injEq, Prod.mk.injEq] at h
            obtain ⟨-, hm⟩ := h
            rw [← hm]
            exact SelMapStep_trans
              (read_selectors_from_optional_methlist_spec bin lit _ _ _ _ heq1).1
              (SelMapStep_trans
                (read_selectors_from_optional_methlist_spec bin lit _ _ _ _ heq2).1
                (SelMapStep_trans
                  (read_selectors_from_optional_methlist_spec bin lit _ _ _ _ heq3).1
                  (read_selectors_from_optional_methlist_spec bin lit _ _ _ _ heq4).1))

theorem parse_protocol_ptr_list_spec (bin : MachoBinary) (lit : SelectorLiteralToSelrefMap) :
    ∀ (ptrs : List Nat) (sel : SelrefPtrToSelectorMap)
      (protos : List ObjcProtocol) (m : SelrefPtrToSelectorMap),
      parse_protocol_ptr_list bin lit ptrs sel = .ok (protos, m) →
      SelMapStep sel m := by
  intro ptrs
  induction ptrs with
  | nil =>
    intro sel protos m h
    have h2 : (Except.ok ([], sel)
        : Except String (List ObjcProtocol × SelrefPtrToSelectorMap))
        = .ok (protos, m) := h
    simp only [Except.ok.injEq, Prod.mk.injEq] at h2
    rw [← h2.2]
    exact SelMapStep_refl sel
  | cons ptr rest ih =>
    intro sel protos m h
    rw [parse_protocol_ptr_list] at h
    split at h
    · cases h
    · rename_i proto m1 heq1
      split at h
      · cases h
      · rename_i protos2 m2 heq2
        simp only [Except.ok.injEq, Prod.mk.injEq] at h
        rw [← h.2]
        exact SelMapStep_trans
          (parse_objc_protocol_entry_spec bin lit _ _ _ _ heq1)
          (ih _ _ _ heq2)

theorem parse_objc_data_entry_spec
    (bin : MachoBinary) (lit : SelectorLiteralToSelrefMap)
    (cls : ObjcClassRawStruct) (d : ObjcDataRawStruct)
    (sel : SelrefPtrToSelectorMap) (c : ObjcClass) (m2 : SelrefPtrToSelectorMap)
    (h : parse_objc_data_entry bin lit cls d sel = .ok (c, m2)) :
    SelMapStep sel m2 ∧ SelsOk m2 c.selectors := by
  unfold parse_objc_data_entry at h
  split at h
  · cases h
  · split at h
    · cases h
    · rename_i selectors m1 heq1
      split at h
      · cases h
      · rename_i protocols m2x heq2
        split at h
        · cases h
        · rename_i ivars heq3
          simp only [Except.ok.injEq, Prod.mk.injEq] at h
          obtain ⟨hc, hm⟩ := h
          have h1 := read_selectors_from_optional_methlist_spec bin lit _ _ _ _ heq1
          have h2 : SelMapStep m1 m2x := by
            split at heq2
            · simp only [Except.ok.injEq, Prod.mk.injEq] at heq2
              rw [← heq2.2]
              exact SelMapStep_refl m1
            · exact parse_protocol_ptr_list_spec bin lit _ _ _ _ heq2
          rw [← hc, ← hm]
          exact ⟨SelMapStep_trans h1.1 h2, SelsOk_of_step h1.2 h2⟩

theorem parse_classlist_entry_step2_spec
    (bin : MachoBinary) (lit : SelectorLiteralToSelrefMap)
    (cls : ObjcClassRawStruct) (ptr : Nat) (pc? : Option ObjcClass)
    (m1 : SelrefPtrToSelectorMap) (c : ObjcClass) (m2 : SelrefPtrToSelectorMap)
    (h : parse_classlist_entry_step2 bin lit cls ptr pc? m1 = .ok (c, m2)) :
    SelMapStep m1 m2 ∧
    (∀ c0, pc? = some c0 → SelsOk m1 c0.selectors → SelsOk m2 c.selectors) ∧
    (pc? = none → SelsOk m2 c.selectors) := by
  cases pc? with
  | some c0 =>
    unfold parse_classlist_entry_step2 at h
    split at h
    · split at h
      · cases h
      · rename_i pm m2x heq
        have hspec := parse_objc_data_entry_spec bin lit _ _ _ _ _ heq
        have h2 : (Except.ok ({ c0 with selectors := c0.selectors ++ pm.selectors }, m2x)
            : Except String (ObjcClass × SelrefPtrToSelectorMap)) = .ok (c, m2) := h
        simp only [Except.ok.injEq, Prod.mk.injEq] at h2
        obtain ⟨hc, hm⟩ := h2
        refine ⟨hm ▸ hspec.1, ?_, ?_⟩
        · intro c0x hpcx hok
          injection hpcx with hpcx
          subst hpcx
          rw [← hc, ← hm]
          exact SelsOk_append (SelsOk_of_step hok hspec.1) hspec.2
        · intro hpcx
          cases hpcx
    · have h2 : (Except.ok (c0, m1)
          : Except String (ObjcClass × SelrefPtrToSelectorMap)) = .ok (c, m2) := h
      simp only [Except.ok.injEq, Prod.mk.injEq] at h2
      obtain ⟨hc, hm⟩ := h2
      refine ⟨hm ▸ SelMapStep_refl m1, ?_, ?_⟩
      · intro c0x hpcx hok
        injection hpcx with hpcx
        subst hpcx
        rw [← hc, ← hm]
        exact hok
      · intro hpcx
        cases hpcx
  | none =>
    unfold parse_classlist_entry_step2 at h
    split at h
    · split at h
      · cases h
      · rename_i pm m2x heq
        have hspec := parse_objc_data_entry_spec bin lit _ _ _ _ _ heq
        have h2 : (Except.ok (pm, m2x)
            : Except String (ObjcClass × SelrefPtrToSelectorMap)) = .ok (c, m2) := h
        simp only [Except.ok.injEq, Prod.mk.injEq] at h2
        obtain ⟨hc, hm⟩ := h2
        refine ⟨hm ▸ hspec.1, ?_, ?_⟩
        · intro c0x hpcx hok
          cases hpcx
        · intro hpcx
          rw [← hc, ← hm]
          exact hspec.2
    · cases h

theorem parse_classlist_entry_spec
    (bin : MachoBinary) (lit : SelectorLiteralToSelrefMap) (ptr : Nat)
    (sel : SelrefPtrToSelectorMap) (c : ObjcClass) (m : SelrefPtrToSelectorMap)
    (h : parse_classlist_entry bin lit ptr sel = .ok (c, m)) :
    SelMapStep sel m ∧ SelsOk m c.selectors := by
  unfold parse_classlist_entry at h
  split at h
  · split at h
    · cases h
    · rename_i c1 m1 heq
      have h1 := parse_objc_data_entry_spec bin lit _ _ _ _ _ heq
      have h2 := parse_classlist_entry_step2_spec bin lit _ _ _ _ _ _ h
      exact ⟨SelMapStep_trans h1.1 h2.1, h2.2.1 c1 rfl h1.2⟩
  · have h2 := parse_classlist_entry_step2_spec bin lit _ _ _ _ _ _ h
    exact ⟨h2.1, h2.2.2 rfl⟩

theorem parse_objc_classes_loop_spec (bin : MachoBinary) (lit : SelectorLiteralToSelrefMap) :
    ∀ (ptrs : List Nat) (sel : SelrefPtrToSelectorMap)
      (classes : List ObjcClass) (m : SelrefPtrToSelectorMap),
      parse_objc_classes_loop bin lit ptrs sel = .ok (classes, m) →
      SelMapStep sel m ∧ ∀ c ∈ classes, SelsOk m c.selectors := by
  intro ptrs
  induction ptrs with
  | nil =>
    intro sel classes m h
    have h2 : (Except.ok ([], sel)
        : Except String (List ObjcClass × SelrefPtrToSelectorMap))
        = .ok (classes, m) := h
    simp only [Except.ok.injEq, Prod.mk.injEq] at h2
    rw [← h2.1, ← h2.2]
    exact ⟨SelMapStep_refl sel, fun c hc => absurd hc (by simp)⟩
  | cons ptr rest ih =>
    intro sel classes m h
    rw [parse_objc_classes_loop] at h
    split at h
    · cases h
    · rename_i c1 m1 heq1
      split at h
      · cases h
      · rename_i classes2 m2 heq2
        simp only [Except.ok.injEq, Prod.mk.injEq] at h
        obtain ⟨hcl, hm⟩ := h
        have h1 := parse_classlist_entry_spec bin lit _ _ _ _ heq1
        have h2 := ih _ _ _ heq2
        rw [← hcl, ← hm]
        refine ⟨SelMapStep_trans h1.1 h2.1, ?_⟩
        intro c hc
        rcases List.mem_cons.mp hc with hh | hh
        · subst hh
          exact SelsOk_of_step h1.2 h2.1
        · exact h2.2 c hh

theorem parse_objc_category_entry_spec
    (bin : MachoBinary) (lit : SelectorLiteralToSelrefMap)
    (catstruct : ObjcCategoryRawStruct) (sel : SelrefPtrToSelectorMap)
    (c : ObjcClass) (m : SelrefPtrToSelectorMap)
    (h : parse_objc_category_entry bin lit catstruct sel = .ok (c, m)) :
    SelMapStep sel m ∧ SelsOk m c.selectors := by
  unfold parse_objc_category_entry at h
  split at h
  · cases h
  · split at h
    · cases h
    · rename_i s1 m1 heq1
      split at h
      · cases h
      · rename_i s2 m2 heq2
        split at h
        · cases h
        · rename_i protocols m3 heq3
          simp only [Except.ok.injEq, Prod.mk.injEq] at h
          obtain ⟨hc, hm⟩ := h
          have h1 := read_selectors_from_optional_methlist_spec bin lit _ _ _ _ heq1
          have h2 := read_selectors_from_optional_methlist_spec bin lit _ _ _ _ heq2
          have h3 : SelMapStep m2 m3 := by
            split at heq3
            · simp only [Except.ok.injEq, Prod.mk.injEq] at heq3
              rw [← heq3.2]
              exact SelMapStep_refl m2
            · exact parse_protocol_ptr_list_spec bin lit _ _ _ _ heq3
          rw [← hc, ← hm]
          refine ⟨SelMapStep_trans h1.1 (SelMapStep_trans h2.1 h3), ?_⟩
          exact SelsOk_append
            (SelsOk_of_step h1.2 (SelMapStep_trans h2.1 h3))
            (SelsOk_of_step h2.2 h3)

theorem parse_objc_categories_loop_spec (bin : MachoBinary) (lit : SelectorLiteralToSelrefMap) :
    ∀ (ptrs : List Nat) (sel : SelrefPtrToSelectorMap)
      (categories : List ObjcClass) (m : SelrefPtrToSelectorMap),
      parse_objc_categories_loop bin lit ptrs sel = .ok (categories, m) →
      SelMapStep sel m ∧ ∀ c ∈ categories, SelsOk m c.selectors := by
  intro ptrs
  induction ptrs with
  | nil =>
    intro sel categories m h
    have h2 : (Except.ok ([], sel)
        : Except String (List ObjcClass × SelrefPtrToSelectorMap))
        = .ok (categories, m) := h
    simp only [Except.ok.injEq, Prod.mk.injEq] at h2
    rw [← h2.1, ← h2.2]
    exact ⟨SelMapStep_refl sel, fun c hc => absurd hc (by simp)⟩
  | cons ptr rest ih =>
    intro sel categories m h
    rw [parse_objc_categories_loop] at h
    split at h
    · cases h
    · rename_i c1 m1 heq1
      split at h
      · cases h
      · rename_i cats2 m2 heq2
        simp only [Except.ok.injEq, Prod.mk.injEq] at h
        obtain ⟨hcl, hm⟩ := h
        have h1 := parse_objc_category_entry_spec bin lit _ _ _ _ heq1
        have h2 := ih _ _ _ heq2
        rw [← hcl, ← hm]
        refine ⟨SelMapStep_trans h1.1 h2.1, ?_⟩
        intro c hc
        rcases List.mem_cons.mp hc with hh | hh
        · subst hh
          exact SelsOk_of_step h1.2 h2.1
        · exact h2.2 c hh

theorem nodup_keys_parse_selrefs_loop (bin : MachoBinary) :
    ∀ (pairs : List (Nat × Nat)) (lit : SelectorLiteralToSelrefMap)
      (sel : SelrefPtrToSelectorMap),
      ((sel.map Prod.fst).Nodup) →
      (((parse_selrefs_loop bin pairs lit sel).2).map Prod.fst).Nodup := by
  intro pairs
  induction pairs with
  | nil => intro lit sel h; exact h
  | cons pair rest ih =>
    intro lit sel h
    obtain ⟨sp0, lp0⟩ := pair
    cases hts : truthy_string (bin.get_full_string_from_start_address lp0) with
    | none =>
      rw [show parse_selrefs_loop bin ((sp0, lp0) :: rest) lit sel
            = parse_selrefs_loop bin rest lit sel from by rw [parse_selrefs_loop, hts]]
      exact ih lit sel h
    | some s0 =>
      rw [show parse_selrefs_loop bin ((sp0, lp0) :: rest) lit sel
            = parse_selrefs_loop bin rest
                (dictSet lit lp0 ⟨sp0, lp0, s0⟩)
                (dictSet sel sp0 ⟨s0, some ⟨sp0, lp0, s0⟩, none⟩)
          from by rw [parse_selrefs_loop, hts]]
      exact ih _ _ (nodup_keys_dictSet sel sp0 _ h)

/-- Key-uniqueness helper: the selector map built by `_parse_selrefs`
has no duplicate keys, as `dictSet` models Python dict assignment. -/
theorem nodup_keys_parse_selrefs (bin : MachoBinary)
    (lit : SelectorLiteralToSelrefMap) (sel : SelrefPtrToSelectorMap)
    (h : parse_selrefs bin = .ok (lit, sel)) :
    ((sel.map Prod.fst)).Nodup := by
  have h2 : (if !(bin.selrefs_section.1.length == bin.selrefs_section.2.length) then
      (.error ("read invalid data from __objc_selrefs")
        : Except String (SelectorLiteralToSelrefMap × SelrefPtrToSelectorMap))
    else .ok (parse_selrefs_loop bin
      (bin.selrefs_section.1.zip bin.selrefs_section.2) [] [])) = .ok (lit, sel) := h
  split at h2
  · cases h2
  · simp only [Except.ok.injEq] at h2
    have h3 : sel
        = (parse_selrefs_loop bin (bin.selrefs_section.1.zip bin.selrefs_section.2) [] []).2 := by
      rw [h2]
    rw [h3]
    exact nodup_keys_parse_selrefs_loop bin _ [] [] List.nodup_nil

/-- C1 (corrected): after `ObjcRuntimeDataParser.__init__` succeeds, the
selref-pointer-to-selector map has unique keys, and every selector of every
parsed class or category that carries a selref and a resolved
implementation has SOME resolved selector stored under its selref source
address -- but, contrary to the spec, not necessarily its OWN entry: a
later-parsed method naming the same selector literal overwrites the map
entry (see the counterexample), so the map records the last such
implementation rather than each class-specific one. -/
theorem c1_selref_map_resolution (bin : MachoBinary) (parser : ObjcRuntimeDataParser)
    (h : objc_runtime_data_parser_init bin = .ok parser) :
    ((parser.selref_ptr_to_selector_map.map Prod.fst)).Nodup ∧
    ∀ c ∈ parser.classes, ∀ s ∈ c.selectors,
      s.implementation.isSome = true ∧
      ∀ sr, s.selref = some sr →
        ∃ v, dictGet parser.selref_ptr_to_selector_map sr.source_address = some v ∧
          v.implementation.isSome = true := by
  unfold objc_runtime_data_parser_init at h
  split at h
  · cases h
  · rename_i lit sel0 hsr
    split at h
    · cases h
    · rename_i classes1 sel1 hcl
      split at h
      · cases h
      · rename_i categories sel2 hcat
        split at h
        · cases h
        · rename_i protocols sel3 hproto
          simp only [Except.ok.injEq] at h
          have hnod0 := nodup_keys_parse_selrefs bin lit sel0 hsr
          have hc1 := parse_objc_classes_loop_spec bin lit _ _ _ _ hcl
          have hc2 := parse_objc_categories_loop_spec bin lit _ _ _ _ hcat
          have hc3 := parse_protocol_ptr_list_spec bin lit _ _ _ _ hproto
          have hstep13 : SelMapStep sel1 sel3 := SelMapStep_trans hc2.1 hc3
          rw [← h]
          refine ⟨(SelMapStep_trans hc1.1 hstep13).2 hnod0, ?_⟩
          intro c hc s hs
          rcases List.mem_append.mp hc with hh | hh
          · exact SelsOk_of_step (hc1.2 c hh) hstep13 s hs
          · exact SelsOk_of_step (hc2.2 c hh) hc3 s hs

/-- The C1 counterexample binary: one selref (0x5000) whose literal
(0x3000, "foo") is named by a method of each of the two classes in the
class list, with distinct implementations 0x1400 and 0x2400. -/
def c1_cex_bin : MachoBinary := {
  selrefs_section := ([0x5000], [0x3000]),
  classlist_pointers := [0x100, 0x200],
  catlist_pointers := [],
  protolist_pointers := [],
  get_full_string_from_start_address := fun addr =>
    if addr == 0x2000 then some ("ClassA")
    else if addr == 0x2100 then some ("ClassB")
    else if addr == 0x3000 then some ("foo")
    else none,
  class_struct_at := fun addr =>
    if addr == 0x100 then ⟨0x900, 0x6000⟩
    else if addr == 0x200 then ⟨0x900, 0x6400⟩
    else ⟨0, 0⟩,
  data_struct_at := fun addr =>
    if addr == 0x6000 then ⟨0x2000, 0x7000, 0, 0⟩
    else if addr == 0x6400 then ⟨0x2100, 0x7400, 0, 0⟩
    else ⟨0, 0, 0, 0⟩,
  category_struct_at := fun _ => ⟨0, 0, 0, 0⟩,
  protocol_struct_at := fun _ => ⟨0, 0, 0, 0, 0⟩,
  protocol_list_struct_at := fun _ => ⟨0, 0, 0⟩,
  method_list_struct_at := fun addr =>
    if addr == 0x7000 then ⟨1, 8⟩
    else if addr == 0x7400 then ⟨1, 8⟩
    else ⟨0, 0⟩,
  method_struct_at := fun addr =>
    if addr == 0x7008 then ⟨0x3000, 0x1400, 24⟩
    else if addr == 0x7408 then ⟨0x3000, 0x2400, 24⟩
    else ⟨0, 0, 0⟩,
  ivar_list_struct_at := fun _ => ⟨0, 0⟩,
  ivar_struct_at := fun _ => ⟨0, 0, 0, 0⟩,
  read_word := fun _ => 0,
  read_word32 := fun _ => 0,
  platform_word_size := 8,
  virtual_base := 0x1000 }

/-- The single selref of `c1_cex_bin`. -/
def c1_cex_sr : ObjcSelref := ⟨0x5000, 0x3000, ("foo")⟩

/-- The parser state produced from `c1_cex_bin`. -/
def c1_cex_parsed : ObjcRuntimeDataParser :=
  ⟨[⟨.cls ⟨0x900, 0x6000⟩, ("ClassA"), [⟨("foo"), some c1_cex_sr, some 0x1400⟩],
      [], [], none⟩,
    ⟨.cls ⟨0x900, 0x6400⟩, ("ClassB"), [⟨("foo"), some c1_cex_sr, some 0x2400⟩],
      [], [], none⟩],
   [],
   [(0x5000, ⟨("foo"), some c1_cex_sr, some 0x2400⟩)],
   [(0x3000, c1_cex_sr)]⟩

/-- C1 counterexample: parsing succeeds; ClassA holds a selector for selref
0x5000 with implementation 0x1400, yet the selref map entry for 0x5000 is
the LAST selector parsed for that literal (ClassB, implementation 0x2400):
the per-class association claimed by the spec is overwritten. -/
theorem c1_counterexample :
    objc_runtime_data_parser_init c1_cex_bin = .ok c1_cex_parsed ∧
    (∃ c ∈ c1_cex_parsed.classes, ∃ s ∈ c.selectors,
      s.selref = some c1_cex_sr ∧ s.implementation = some 0x1400) ∧
    dictGet c1_cex_parsed.selref_ptr_to_selector_map c1_cex_sr.source_address
      = some ⟨("foo"), some c1_cex_sr, some 0x2400⟩ := by
  refine ⟨by decide, ?_, by decide⟩
  decide

/-- C1 witness: the amended theorem instantiated on the concrete
counterexample binary and its parser state. -/
theorem c1_selref_map_resolution_witness :
    ((c1_cex_parsed.selref_ptr_to_selector_map.map Prod.fst)).Nodup ∧
    ∀ c ∈ c1_cex_parsed.classes, ∀ s ∈ c.selectors,
      s.implementation.isSome = true ∧
      ∀ sr, s.selref = some sr →
        ∃ v, dictGet c1_cex_parsed.selref_ptr_to_selector_map sr.source_address = some v ∧
          v.implementation.isSome = true :=
  c1_selref_map_resolution c1_cex_bin c1_cex_parsed (by decide)

end Strongarm
